import Mathlib

/-!
# 1inch integrator scripts: order lifecycle

A shallow embedding of the swap scripts `fusion.js` and `fusion_plus.js`, of
the status queries of `check_transaction.js` and `limit_order.js`, of
`buildOrder` of `limit_order.js` and of the start-up check of the scripts.

Every `await`ed collaborator call (venue SDK, chain RPC) is an input of the
model: the caller of a definition supplies what each call answers, or the
error it raises.  What the scripts do to the outside world is recorded as a
list of `Event`s in program order.  `Date.now()` is a clock of milliseconds
that `sleep ms` advances by `ms` and a status poll advances by the time the
poll took.  The `while (true)` loops take a fuel argument: `none` means the
loop is still running when the fuel is used up.

Console output is left out, except for the `Order status:` line of the
single-chain monitor.
-/

set_option maxRecDepth 100000

/-! ## Shared vocabulary -/

/-- The calls the scripts make to their collaborators, and the one console
line that reports a status transition. -/
inductive Event where
  /-- The script suspends in `sleep(ms)`. -/
  | sleep (ms : Nat)
  /-- A call of `sdk.getQuote`. -/
  | getQuote
  /-- A read `tokenContract.allowance(owner, spender)` on `token`. -/
  | allowance (token owner spender : String)
  /-- A call of `ethersProvider.getGasPrice()`. -/
  | getGasPrice
  /-- A transaction `tokenContract.approve(spender, amount, {gasLimit, gasPrice})`
  on `token`. -/
  | approve (token spender : String) (amount gasLimit gasPrice : Nat)
  /-- A call of `approveTx.wait(confirmations)`. -/
  | wait (confirmations : Nat)
  /-- A call of `sdk.createOrder`. -/
  | createOrder
  /-- A call of `sdk.submitOrder`. -/
  | submitOrder
  /-- A call of `sdk.getOrderStatus(orderHash)`. -/
  | getOrderStatus (orderHash : String)
  /-- The console line `Order status: <status>` of fusion.js, line 242. -/
  | logStatus (status : String)
  /-- A call of `sdk.getReadyToAcceptSecretFills(hash)`. -/
  | getReadyToAcceptSecretFills (hash : String)
  /-- A call of `sdk.submitSecret(hash, secret)`; `secret` is `none` when the
  array access `secrets[idx]` is out of range (`undefined`). -/
  | submitSecret (hash : String) (secret : Option String)
  /-- A call of `axios.get(url, config)` with the `Authorization` header
  `authorization`. -/
  | axiosGet (url authorization : String)
  deriving DecidableEq, Repr

/-- What an `await`ed call settles to: a value, or a thrown error, kept as
its message. -/
inductive Settled (α : Type) where
  | ok (value : α)
  | threw (message : String)
  deriving DecidableEq, Repr

/-- The answers of the chain RPC provider to the calls of one
`checkAndSetAllowance`. -/
structure Chain where
  /-- `tokenContract.allowance(walletAddress, spenderAddress)`. -/
  allowance : Settled Nat
  /-- `ethersProvider.getGasPrice()`. -/
  getGasPrice : Settled Nat
  /-- `tokenContract.approve(...)`: the hash of the transaction sent. -/
  approve : Settled String
  /-- `approveTx.wait(1)`: the block number of the receipt. -/
  wait : Settled Nat
  deriving DecidableEq, Repr

/-- The trace of a finished call and how it finished. -/
structure Run (α : Type) where
  trace : List Event
  result : Settled α
  deriving DecidableEq, Repr

/-- `ethers.constants.MaxUint256`. -/
def MaxUint256 : Nat := 2 ^ 256 - 1

/-- The number of `sdk.getOrderStatus` calls in a trace. -/
def pollsMade (trace : List Event) : Nat :=
  trace.countP fun e =>
    match e with
    | .getOrderStatus _ => true
    | _ => false

/-- The number of `approve` transactions in a trace. -/
def approvalsSent (trace : List Event) : Nat :=
  trace.countP fun e =>
    match e with
    | .approve _ _ _ _ _ => true
    | _ => false

/-- `String.prototype.toLowerCase` on the letters `A`-`Z`; every other
character is kept.  (JavaScript also lowers letters outside ASCII; none of
them lowers to a character of the address the result is compared with.) -/
def toLowerCase (s : String) : String :=
  String.mk (s.data.map Char.toLower)

/-- A chain on which the wallet has granted nothing yet and every call
succeeds; the gas price is 1 gwei. -/
def sampleChain : Chain :=
  { allowance := .ok 0, getGasPrice := .ok 1000000000, approve := .ok "0xapprove",
    wait := .ok 1 }

/-! ## fusion.js -/

namespace Fusion

/-- Modelled from the spec: the `OrderStatus` enumeration is imported from
the venue SDK (`@1inch/fusion-sdk`), which is not part of the repository.
The statuses are strings; the spec names them `Pending`, `PartiallyFilled`,
`Filled`, `Expired` and `Cancelled`. -/
structure OrderStatusEnum where
  Pending : String
  PartiallyFilled : String
  Filled : String
  Expired : String
  Cancelled : String
  deriving DecidableEq, Repr

/-- Modelled from the spec: the members of the enumeration, spelled as the
SDK spells them.  The model only uses that they are distinct and not empty. -/
def OrderStatus : OrderStatusEnum where
  Pending := "pending"
  PartiallyFilled := "partially-filled"
  Filled := "filled"
  Expired := "expired"
  Cancelled := "cancelled"

/-- The answer to one `sdk.getOrderStatus` call of the monitor: how long the
call took to settle, and `data.status` or the error raised. -/
structure Poll where
  took : Nat
  response : Settled String
  deriving DecidableEq, Repr

/-- `checkAndSetAllowance` of fusion.js (lines 81-122).  The `catch` logs and
rethrows, so an error of any call is the error of the function. -/
def checkAndSetAllowance (walletAddress : String) (chain : Chain)
    (tokenAddress spenderAddress : String) (amount : Nat) : Run Bool :=
  let t1 := [Event.allowance tokenAddress walletAddress spenderAddress]
  match chain.allowance with
  | .threw e => ⟨t1, .threw e⟩
  | .ok currentAllowance =>
    if currentAllowance < amount then
      let approvalAmount := MaxUint256
      let t2 := t1 ++ [Event.getGasPrice]
      match chain.getGasPrice with
      | .threw e => ⟨t2, .threw e⟩
      | .ok gasPrice =>
        let t3 := t2 ++ [Event.approve tokenAddress spenderAddress approvalAmount 100000
          (gasPrice * 110 / 100)]
        match chain.approve with
        | .threw e => ⟨t3, .threw e⟩
        | .ok _ =>
          let t4 := t3 ++ [Event.wait 1]
          match chain.wait with
          | .threw e => ⟨t4, .threw e⟩
          | .ok _ => ⟨t4, .ok true⟩
    else
      ⟨t1, .ok false⟩

/-- The variables of the monitor of `executeFusionSwap`: the clock, the last
status seen, the number of polls made and the events so far. -/
structure Monitor where
  now : Nat
  lastStatus : String
  polls : Nat
  trace : List Event
  deriving DecidableEq, Repr

/-- One pass through the body of the monitor loop (fusion.js lines 236-270)
with `p` the answer to its poll.  The flag is `true` when the pass ends in
`break`. -/
def monitorIter (orderHash : String) (startTime : Nat) (p : Poll) (m : Monitor) :
    Monitor × Bool :=
  let now := m.now + 2000 + p.took
  let trace := m.trace ++ [Event.sleep 2000, Event.getOrderStatus orderHash]
  match p.response with
  | .threw _ =>
    ({ now := now + 5000, lastStatus := m.lastStatus, polls := m.polls + 1,
       trace := trace ++ [Event.sleep 5000] }, false)
  | .ok status =>
    let m1 : Monitor :=
      if status ≠ m.lastStatus then
        { now := now, lastStatus := status, polls := m.polls + 1,
          trace := trace ++ [Event.logStatus status] }
      else
        { now := now, lastStatus := m.lastStatus, polls := m.polls + 1, trace := trace }
    if status = OrderStatus.Filled then (m1, true)
    else if status = OrderStatus.Expired then (m1, true)
    else if status = OrderStatus.Cancelled then (m1, true)
    else if now - startTime > 300000 then (m1, true)
    else (m1, false)

/-- The monitor loop `while (true)` of fusion.js (lines 235-271):
`getOrderStatus k` is the answer to poll number `k`.  `some m` is the state at
the `break`; `none` means the loop has not left after `fuel` passes. -/
def monitorLoop (orderHash : String) (getOrderStatus : Nat → Poll) (startTime : Nat) :
    Nat → Monitor → Option Monitor
  | 0, _ => none
  | fuel + 1, m =>
    match monitorIter orderHash startTime (getOrderStatus m.polls) m with
    | (m1, true) => some m1
    | (m1, false) => monitorLoop orderHash getOrderStatus startTime fuel m1

/-- The argument of `executeFusionSwap`. -/
structure SwapParams where
  fromTokenAddress : String
  toTokenAddress : String
  amount : Nat
  deriving DecidableEq, Repr

/-- The answers of the venue SDK client to the calls of one
`executeFusionSwap`: `getOrderStatus k` answers poll number `k`. -/
structure Venue where
  /-- `sdk.getQuote(params)`: the quote's `toTokenAmount`. -/
  getQuote : Settled String
  /-- `sdk.createOrder(params)`: the prepared order and its `quoteId`. -/
  createOrder : Settled (String × String)
  /-- `sdk.submitOrder(order, quoteId)`: `info.orderHash`. -/
  submitOrder : Settled String
  getOrderStatus : Nat → Poll

/-- The object `executeFusionSwap` returns.  `executionTime` is in seconds:
the milliseconds on the clock divided by 1000, kept exact (the script holds
the nearest floating-point number). -/
structure SwapResult where
  orderHash : String
  executionTime : ℚ
  finalStatus : String
  deriving DecidableEq, Repr

/-- The address that stands for the chain's native asset (line 197). -/
def nativeToken : String := "0xeeeeeeeeeeeeeeeeeeeeeeeeeeeeeeeeeeeeeeee"

/-- The router the allowance is granted to (line 202). -/
def baseRouterAddress : String := "0x111111125421cA6dc452d289314280a0f8842A65"

/-- The steps of `executeFusionSwap` before the monitor (fusion.js lines
163-228): quote, allowance (skipped for the native asset), create, submit.
The result is `info.orderHash`.  The outer `catch` logs and rethrows, so an
error of any step is the error of `executeFusionSwap`. -/
def submitPhase (walletAddress : String) (venue : Venue) (chain : Chain)
    (swapParams : SwapParams) : Run String :=
  let t1 := [Event.getQuote]
  match venue.getQuote with
  | .threw e => ⟨t1, .threw e⟩
  | .ok _ =>
    let t2 := t1 ++ [Event.sleep 1000]
    let isNativeToken : Bool := toLowerCase swapParams.fromTokenAddress = nativeToken
    let allowanceStep : Run Bool :=
      if !isNativeToken then
        checkAndSetAllowance walletAddress chain swapParams.fromTokenAddress
          baseRouterAddress swapParams.amount
      else ⟨[], .ok false⟩
    let t3 := t2 ++ allowanceStep.trace
    match allowanceStep.result with
    | .threw e => ⟨t3, .threw e⟩
    | .ok _ =>
      let t4 := t3 ++ [Event.createOrder]
      match venue.createOrder with
      | .threw e => ⟨t4, .threw e⟩
      | .ok _ =>
        let t5 := t4 ++ [Event.sleep 1000, Event.submitOrder]
        match venue.submitOrder with
        | .threw e => ⟨t5, .threw e⟩
        | .ok orderHash => ⟨t5, .ok orderHash⟩

/-- `executeFusionSwap` of fusion.js (lines 157-298).  `startTime` is what
`Date.now()` reads at line 232.  The final HTTP status check (lines 277-286)
names `authKey`, which fusion.js never declares: evaluating the argument
raises a ReferenceError, the `catch` around the check swallows it, and no
request is sent. -/
def executeFusionSwap (walletAddress : String) (venue : Venue) (chain : Chain)
    (startTime fuel : Nat) (swapParams : SwapParams) : Option (Run SwapResult) :=
  let submitted := submitPhase walletAddress venue chain swapParams
  match submitted.result with
  | .threw e => some ⟨submitted.trace, .threw e⟩
  | .ok orderHash =>
    match monitorLoop orderHash venue.getOrderStatus startTime fuel
        { now := startTime, lastStatus := "", polls := 0, trace := submitted.trace } with
    | none => none
    | some m =>
      let executionTime : ℚ := ((m.now - startTime : Nat) : ℚ) / 1000
      some ⟨m.trace, .ok
        { orderHash := orderHash, executionTime := executionTime,
          finalStatus := m.lastStatus }⟩

/-! ### Vocabulary for the statements about fusion.js -/

/-- The statuses at which the monitor breaks (lines 246-260). -/
def isTerminal (status : String) : Prop :=
  status = OrderStatus.Filled ∨ status = OrderStatus.Expired ∨ status = OrderStatus.Cancelled

instance : DecidablePred isTerminal := fun status => by
  unfold isTerminal; exact inferInstance

/-- The statuses the `Order status:` lines of a trace report, in order. -/
def reports (trace : List Event) : List String :=
  trace.filterMap fun e =>
    match e with
    | .logStatus status => some status
    | _ => none

/-- The statuses the venue returned at the successful polls among the first
`n` polls, in order. -/
def observed (getOrderStatus : Nat → Poll) (n : Nat) : List String :=
  (List.range n).filterMap fun k =>
    match (getOrderStatus k).response with
    | .ok status => some status
    | .threw _ => none

/-- The transitions of a sequence of observed statuses, as the spec words
them: a status is reported when it differs from the status observed before
it, `previous` being the status observed before the first one. -/
def transitions (previous : String) : List String → List String
  | [] => []
  | status :: rest =>
    (if status ≠ previous then [status] else []) ++ transitions status rest

/-- The clock at the start of pass `k` of a monitor that is still running:
every pass sleeps 2000 ms and polls, and a pass whose poll failed sleeps
another 5000 ms. -/
def clockAt (getOrderStatus : Nat → Poll) (startTime : Nat) : Nat → Nat
  | 0 => startTime
  | k + 1 =>
    clockAt getOrderStatus startTime k + 2000 + (getOrderStatus k).took +
      (match (getOrderStatus k).response with
       | .ok _ => 0
       | .threw _ => 5000)

/-- Milliseconds since the start of the monitor at which poll `k` settles. -/
def elapsedAt (getOrderStatus : Nat → Poll) (startTime k : Nat) : Nat :=
  clockAt getOrderStatus startTime k + 2000 + (getOrderStatus k).took - startTime

/-- The time spent, before pass `k`, in the passes whose poll failed: the
2000 ms sleep, the failed call and the 5000 ms wait of each. -/
def failedTime (getOrderStatus : Nat → Poll) : Nat → Nat
  | 0 => 0
  | k + 1 =>
    failedTime getOrderStatus k +
      (match (getOrderStatus k).response with
       | .ok _ => 0
       | .threw _ => 2000 + (getOrderStatus k).took + 5000)

/-- Poll `k` ends the monitor: it succeeds, and its status is terminal or it
settles more than 300000 ms after the start. -/
def leavesAt (getOrderStatus : Nat → Poll) (startTime k : Nat) : Prop :=
  ∃ status, (getOrderStatus k).response = .ok status ∧
    (isTerminal status ∨ 300000 < elapsedAt getOrderStatus startTime k)

/-! ### Sample inputs for fusion.js -/

/-- The swap of `main` in fusion.js (lines 309-314): 5 units of a token with
6 decimals. -/
def sampleParams : SwapParams :=
  { fromTokenAddress := "0xdAC17F958D2ee523a2206206994597C13D831ec7",
    toTokenAddress := "0xC02aaA39b223FE8D0A0e5C4F27eAD9083C756Cc2",
    amount := 5000000 }

/-- A venue that quotes, creates and submits the order `0xorder`, and answers
the status polls by `getOrderStatus`. -/
def venueOf (getOrderStatus : Nat → Poll) : Venue :=
  { getQuote := .ok "4990000", createOrder := .ok ("order", "quote-1"),
    submitOrder := .ok "0xorder", getOrderStatus := getOrderStatus }

/-- Every poll answers `Pending` at once. -/
def alwaysPending : Nat → Poll := fun _ => ⟨0, .ok OrderStatus.Pending⟩

/-- Every poll fails at once. -/
def alwaysFailing : Nat → Poll := fun _ => ⟨0, .threw "network error"⟩

/-- Every poll answers `Pending` at once, except poll 149 (the 150th, made
300000 ms after the start), which fails. -/
def lateFailure : Nat → Poll := fun k =>
  if k = 149 then ⟨0, .threw "network error"⟩ else ⟨0, .ok OrderStatus.Pending⟩

/-- The polls answer `Pending`, `Pending`, then `Filled`. -/
def pendingPendingFilled : Nat → Poll := fun k =>
  if k < 2 then ⟨0, .ok OrderStatus.Pending⟩ else ⟨0, .ok OrderStatus.Filled⟩

/-- The polls answer `Pending`, then one fails, then `Filled`. -/
def failThenFilled : Nat → Poll := fun k =>
  if k = 0 then ⟨0, .ok OrderStatus.Pending⟩
  else if k = 1 then ⟨0, .threw "network error"⟩
  else ⟨0, .ok OrderStatus.Filled⟩

/-- The trace of `executeFusionSwap` on `sampleParams` when the polls answer
`Pending`, `Pending`, `Filled`. -/
def pendingPendingFilledTrace : List Event :=
  [Event.getQuote, Event.sleep 1000,
   Event.allowance sampleParams.fromTokenAddress "0xwallet" baseRouterAddress,
   Event.getGasPrice,
   Event.approve sampleParams.fromTokenAddress baseRouterAddress MaxUint256 100000 1100000000,
   Event.wait 1, Event.createOrder, Event.sleep 1000, Event.submitOrder,
   Event.sleep 2000, Event.getOrderStatus "0xorder", Event.logStatus "pending",
   Event.sleep 2000, Event.getOrderStatus "0xorder",
   Event.sleep 2000, Event.getOrderStatus "0xorder", Event.logStatus "filled"]

/-! ### Invariants of the monitor of fusion.js -/

/-- The trace invariant of the monitor: the polls counted in the trace are
the polls made, the reported statuses are the transitions of the statuses
observed, and `lastStatus` is the last status observed. -/
def Traced (g : Nat → Poll) (m : Monitor) : Prop :=
  pollsMade m.trace = m.polls ∧
    reports m.trace = transitions "" (observed g m.polls) ∧
    m.lastStatus = (observed g m.polls).getLastD ""

/-- What holds of the monitor before every pass. -/
def Inv (g : Nat → Poll) (st : Nat) (m : Monitor) : Prop :=
  Traced g m ∧ m.now = clockAt g st m.polls ∧ ∀ k < m.polls, ¬ leavesAt g st k

end Fusion

/-! ## fusion_plus.js -/

namespace FusionPlus

/-- Modelled from the spec: the `OrderStatus` enumeration is imported from
the venue SDK (`@1inch/cross-chain-sdk`), which is not part of the
repository.  The statuses are strings; the spec names `Executed`, `Expired`,
`Cancelled` and `Refunded` as the statuses that end a cross-chain order. -/
structure OrderStatusEnum where
  Pending : String
  Executed : String
  Expired : String
  Cancelled : String
  Refunding : String
  Refunded : String
  deriving DecidableEq, Repr

/-- Modelled from the spec: the members of the enumeration, spelled as the
SDK spells them.  The model only uses that they are distinct. -/
def OrderStatus : OrderStatusEnum where
  Pending := "pending"
  Executed := "executed"
  Expired := "expired"
  Cancelled := "cancelled"
  Refunding := "refunding"
  Refunded := "refunded"

/-- `checkAndSetAllowance` of fusion_plus.js (lines 68-103): no `try`, and the
gas price is passed on as the provider gave it. -/
def checkAndSetAllowance (walletAddress : String) (chain : Chain)
    (tokenAddress spenderAddress : String) (amount : Nat) : Run Bool :=
  let t1 := [Event.allowance tokenAddress walletAddress spenderAddress]
  match chain.allowance with
  | .threw e => ⟨t1, .threw e⟩
  | .ok currentAllowance =>
    if currentAllowance < amount then
      let approvalAmount := MaxUint256
      let t2 := t1 ++ [Event.getGasPrice]
      match chain.getGasPrice with
      | .threw e => ⟨t2, .threw e⟩
      | .ok gasPrice =>
        let t3 := t2 ++ [Event.approve tokenAddress spenderAddress approvalAmount 100000
          gasPrice]
        match chain.approve with
        | .threw e => ⟨t3, .threw e⟩
        | .ok _ =>
          let t4 := t3 ++ [Event.wait 1]
          match chain.wait with
          | .threw e => ⟨t4, .threw e⟩
          | .ok _ => ⟨t4, .ok true⟩
    else
      ⟨t1, .ok false⟩

/-- The answers of the venue during one pass of the loop of `main`: the
`idx` of every fill of `getReadyToAcceptSecretFills`, the outcome of the
`submitSecret` call for the fill at each position of that list, and the
`status` of `getOrderStatus`. -/
structure Tick where
  fills : Settled (List Nat)
  submitSecret : Nat → Settled Unit
  status : Settled String

/-- The `for` loop over the ready fills (lines 204-210); `pos` is the
position of the next fill in the list the venue sent. -/
def shareSecrets (hash : String) (secrets : List String)
    (submitSecret : Nat → Settled Unit) : List Nat → Nat → List Event → Run Unit
  | [], _, trace => ⟨trace, .ok ()⟩
  | idx :: rest, pos, trace =>
    let trace := trace ++ [Event.sleep 1000, Event.submitSecret hash secrets[idx]?]
    match submitSecret pos with
    | .threw e => ⟨trace, .threw e⟩
    | .ok _ => shareSecrets hash secrets submitSecret rest (pos + 1) trace

/-- One pass through the body of the loop of `main` (lines 201-222).  The
result is `true` when the pass ends in `break`.  Nothing in `main` catches,
so an error of any call is the error of the pass. -/
def monitorIter (hash : String) (secrets : List String) (t : Tick)
    (trace : List Event) : Run Bool :=
  let t1 := trace ++ [Event.sleep 1000, Event.getReadyToAcceptSecretFills hash]
  match t.fills with
  | .threw e => ⟨t1, .threw e⟩
  | .ok fills =>
    let shared : Run Unit :=
      if fills.length ≠ 0 then shareSecrets hash secrets t.submitSecret fills 0 t1
      else ⟨t1, .ok ()⟩
    match shared.result with
    | .threw e => ⟨shared.trace, .threw e⟩
    | .ok _ =>
      let t2 := shared.trace ++ [Event.sleep 1000, Event.getOrderStatus hash]
      match t.status with
      | .threw e => ⟨t2, .threw e⟩
      | .ok status =>
        if status = OrderStatus.Executed ∨ status = OrderStatus.Expired
            ∨ status = OrderStatus.Refunded then
          ⟨t2, .ok true⟩
        else ⟨t2, .ok false⟩

/-- The loop `while (true)` of `main` (lines 200-223): `venue k` answers pass
number `k`.  `some run` is the loop left, by `break` (the result is the
number of passes made) or by an error; `none` means the loop has not left
after `fuel` passes. -/
def monitorLoop (hash : String) (secrets : List String) (venue : Nat → Tick) :
    Nat → Nat → List Event → Option (Run Nat)
  | 0, _, _ => none
  | fuel + 1, k, trace =>
    let pass := monitorIter hash secrets (venue k) trace
    match pass.result with
    | .threw e => some ⟨pass.trace, .threw e⟩
    | .ok true => some ⟨pass.trace, .ok (k + 1)⟩
    | .ok false => monitorLoop hash secrets venue fuel (k + 1) pass.trace

/-! ### Vocabulary for the statements about fusion_plus.js -/

/-- The statuses at which the loop of `main` breaks (lines 216-220). -/
def isFinished (status : String) : Prop :=
  status = OrderStatus.Executed ∨ status = OrderStatus.Expired ∨ status = OrderStatus.Refunded

instance : DecidablePred isFinished := fun status => by
  unfold isFinished; exact inferInstance

/-- The secrets passed to `submitSecret` in a trace, in order. -/
def secretsShared (trace : List Event) : List (Option String) :=
  trace.filterMap fun e =>
    match e with
    | .submitSecret _ secret => some secret
    | _ => none

/-- The fill indices the venue reported ready in a pass. -/
def Tick.reported (t : Tick) : List Nat :=
  match t.fills with
  | .ok fills => fills
  | .threw _ => []

/-- No venue call of the pass raises. -/
def Tick.succeeds (t : Tick) : Prop :=
  (∃ fills, t.fills = .ok fills ∧ ∀ pos < fills.length, t.submitSecret pos = .ok ()) ∧
    ∃ status, t.status = .ok status

/-- The venue reports a status that ends the loop. -/
def Tick.finished (t : Tick) : Prop :=
  ∃ status, t.status = .ok status ∧ isFinished status

/-! ### Sample inputs for fusion_plus.js -/

/-- Two secrets, as `main` would have generated for `secretsCount = 2`. -/
def sampleSecrets : List String := ["0xs0", "0xs1"]

/-- The venue reports fill 0 ready on two consecutive polls; the order is
`Pending` at the first and `Executed` at the second. -/
def readyTwice : Nat → Tick := fun k =>
  { fills := .ok [0], submitSecret := fun _ => .ok (),
    status := if k = 0 then .ok OrderStatus.Pending else .ok OrderStatus.Executed }

/-- The venue never reports a ready fill and always answers `status`. -/
def neverFinished (status : String) : Nat → Tick := fun _ =>
  { fills := .ok [], submitSecret := fun _ => .ok (), status := .ok status }

end FusionPlus

/-! ## Venue HTTP calls: bodies, errors and the status queries -/

/-- The body of a venue response as JavaScript holds it after axios has
parsed it.  A number is held as the text JavaScript prints for it
(`String(x)`), such as `42`, `0.5` or `1e+21`: the scripts do nothing with
a number but print it. -/
inductive Json where
  | null
  | bool (b : Bool)
  | num (shown : String)
  | str (s : String)
  | arr (items : List Json)
  | obj (fields : List (String × Json))

mutual
/-- The string a template literal puts in place of a body: a string is
itself, a number is its printed text, an array is its elements joined by
commas, and every object is `[object Object]`. -/
def Json.coerce : Json → String
  | .null => "null"
  | .bool b => if b then "true" else "false"
  | .num shown => shown
  | .str s => s
  | .arr items => Json.join items
  | .obj _ => "[object Object]"
termination_by structural j => j
/-- The elements of an array joined by commas, as `Array.prototype.join`
does: `null` gives the empty string. -/
def Json.join : List Json → String
  | [] => ""
  | x :: rest =>
    (match x with
     | .null => ""
     | j => Json.coerce j) ++
    (match rest with
     | [] => ""
     | _ => "," ++ Json.join rest)
termination_by structural items => items
end

/-- The fields of `error.response` the scripts read. -/
structure Response where
  status : Nat
  data : Json

/-- What a failed `axios` call rejects with: `error.response` when the venue
answered outside 2xx, whether `error.request` is set, and `error.message`. -/
structure AxiosError where
  response : Option Response
  request : Bool
  message : String

/-- How an `axios.get` settles: the body of the response, or an error. -/
inductive HttpOutcome where
  | fulfilled (data : Json)
  | rejected (error : AxiosError)

/-- The kinds of failed request the spec tells apart. -/
inductive ErrorKind where
  /-- The venue answered with a status outside 2xx. -/
  | venueRejection
  /-- The request was sent and no response came. -/
  | networkUnavailable
  /-- The request could not be set up. -/
  | requestError
  deriving DecidableEq, Repr

/-- The kind of a failed request, in the spec's precedence: a response first,
then a request, then anything else. -/
def AxiosError.kind (error : AxiosError) : ErrorKind :=
  match error.response with
  | some _ => .venueRejection
  | none => if error.request then .networkUnavailable else .requestError

/-! ### check_transaction.js -/

namespace CheckTransaction

/-- The start-up check of check_transaction.js (lines 4-11): `authKey` is the
value of `AUTH_KEY`, `none` when it is unset.  An unset or empty variable is
falsy. -/
def config (env : String → Option String) : Settled String :=
  match env "AUTH_KEY" with
  | none => .threw "AUTH_KEY environment variable is required"
  | some authKey =>
    if authKey = "" then .threw "AUTH_KEY environment variable is required"
    else .ok authKey

/-- `checkOrderStatus` of check_transaction.js (lines 18-43): the error of a
failed request is rebuilt from a template literal. -/
def checkOrderStatus (authKey orderHash : String) (answer : HttpOutcome) : Run Json :=
  let url := "https://api.1inch.dev/fusion-plus/orders/v1.0/order/status/" ++ orderHash
  let trace := [Event.axiosGet url ("Bearer " ++ authKey)]
  match answer with
  | .fulfilled data => ⟨trace, .ok data⟩
  | .rejected error =>
    match error.response with
    | some response =>
      ⟨trace, .threw ("API Error: " ++ toString response.status ++ " - " ++
        response.data.coerce)⟩
    | none =>
      if error.request then ⟨trace, .threw "No response received from server"⟩
      else ⟨trace, .threw ("Request Error: " ++ error.message)⟩

end CheckTransaction

/-! ### The start-up check of the swap scripts -/

namespace Startup

/-- The `config` object of the swap scripts. -/
structure Config where
  privateKey : String
  provider : String
  authKey : String
  deriving DecidableEq, Repr

/-- The start-up check of fusion.js (lines 12-27); fusion_plus.js (lines
24-38), limit_order.js (lines 6-21), permit.js and permit2.js (lines 8-24)
repeat it word for word.  `env` is `process.env`: `none` for an unset
variable.  An unset or empty variable is falsy, and `provider` is `null`, so
falsy too, when `ALCHEMY_API_KEY` is. -/
def config (env : String → Option String) : Settled Config :=
  let privateKey := env "PRIVATE_KEY"
  let provider : Option String :=
    match env "ALCHEMY_API_KEY" with
    | none => none
    | some key =>
      if key = "" then none else some ("https://arb-mainnet.g.alchemy.com/v2/" ++ key)
  let authKey := env "AUTH_KEY"
  match privateKey with
  | none => .threw "PRIVATE_KEY environment variable is required"
  | some privateKey =>
    if privateKey = "" then .threw "PRIVATE_KEY environment variable is required"
    else
      match provider with
      | none => .threw "ALCHEMY_API_KEY environment variable is required"
      | some provider =>
        match authKey with
        | none => .threw "AUTH_KEY environment variable is required"
        | some authKey =>
          if authKey = "" then .threw "AUTH_KEY environment variable is required"
          else .ok { privateKey := privateKey, provider := provider, authKey := authKey }

/-- The variable is unset or empty. -/
def missing (env : String → Option String) (name : String) : Prop :=
  env name = none ∨ env name = some ""

instance (env : String → Option String) (name : String) : Decidable (missing env name) := by
  unfold missing; exact inferInstance

end Startup

/-! ### The status queries of fusion.js, fusion_plus.js and limit_order.js -/

namespace Fusion

/-- `checkOrderStatusHTTP` of fusion.js (lines 127-152).  `stringify` is
`JSON.stringify`, a built-in of the language. -/
def checkOrderStatusHTTP (stringify : Json → String) (orderHash : String) (chainId : Nat)
    (authKey : String) (answer : HttpOutcome) : Run Json :=
  let url := "https://api.1inch.dev/fusion/orders/v2.0/" ++ toString chainId ++
    "/order/status/" ++ orderHash
  let trace := [Event.axiosGet url ("Bearer " ++ authKey)]
  match answer with
  | .fulfilled data => ⟨trace, .ok data⟩
  | .rejected error =>
    match error.response with
    | some response =>
      ⟨trace, .threw ("API Error: " ++ toString response.status ++ " - " ++
        stringify response.data)⟩
    | none =>
      if error.request then ⟨trace, .threw "No response received from server"⟩
      else ⟨trace, .threw ("Request Error: " ++ error.message)⟩

end Fusion

namespace FusionPlus

/-- `checkOrderStatus` of fusion_plus.js (lines 111-140): the error of a
failed request is rebuilt from a template literal. -/
def checkOrderStatus (orderHash authKey : String) (answer : HttpOutcome) : Run Json :=
  let url := "https://api.1inch.dev/fusion-plus/orders/v1.0/order/status/" ++ orderHash
  let trace := [Event.axiosGet url ("Bearer " ++ authKey)]
  match answer with
  | .fulfilled data => ⟨trace, .ok data⟩
  | .rejected error =>
    match error.response with
    | some response =>
      ⟨trace, .threw ("API Error: " ++ toString response.status ++ " - " ++
        response.data.coerce)⟩
    | none =>
      if error.request then ⟨trace, .threw "No response received from server"⟩
      else ⟨trace, .threw ("Request Error: " ++ error.message)⟩

end FusionPlus

namespace LimitOrder

/-- `checkOrderStatusHTTP` of limit_order.js (lines 94-123).  `stringify` is
`JSON.stringify`, a built-in of the language. -/
def checkOrderStatusHTTP (stringify : Json → String) (chainId : Nat) (orderHash : String)
    (authKey : String) (answer : HttpOutcome) : Run Json :=
  let url := "https://api.1inch.dev/orderbook/v4.0/" ++ toString chainId ++ "/order/" ++
    orderHash
  let trace := [Event.axiosGet url ("Bearer " ++ authKey)]
  match answer with
  | .fulfilled data => ⟨trace, .ok data⟩
  | .rejected error =>
    match error.response with
    | some response =>
      ⟨trace, .threw ("API Error: " ++ toString response.status ++ " - " ++
        stringify response.data)⟩
    | none =>
      if error.request then ⟨trace, .threw "No response received from server"⟩
      else ⟨trace, .threw ("Request Error: " ++ error.message)⟩

/-- Reading the property `name` of a parsed body, for the names `buildOrder`
reads: `none` is `undefined`; a property of `null` or `undefined` cannot be
read (TypeError); a value that is not an object has no such property. -/
def prop (value : Option Json) (name : String) : Settled (Option Json) :=
  match value with
  | none => .threw "TypeError: cannot read properties of undefined"
  | some .null => .threw "TypeError: cannot read properties of null"
  | some (.obj fields) => .ok (fields.lookup name)
  | some _ => .ok none

/-- The object `buildOrder` returns when the request succeeds. -/
structure BuiltOrder where
  domain : Option Json
  order : Option Json
  message : Option Json
  orderHash : Option Json
  extension : Option Json

/-- The object literal of `buildOrder` (lines 51-57), read off the body of
the response. -/
def readOrder (data : Json) : Settled BuiltOrder :=
  match prop (some data) "typedData" with
  | .threw e => .threw e
  | .ok typedData =>
    match prop typedData "domain" with
    | .threw e => .threw e
    | .ok domain =>
      match prop typedData "types" with
      | .threw e => .threw e
      | .ok types =>
        match prop types "Order" with
        | .threw e => .threw e
        | .ok order =>
          match prop typedData "message" with
          | .threw e => .threw e
          | .ok message =>
            match prop (some data) "orderHash" with
            | .threw e => .threw e
            | .ok orderHash =>
              match prop (some data) "extension" with
              | .threw e => .threw e
              | .ok extension =>
                .ok { domain := domain, order := order, message := message,
                      orderHash := orderHash, extension := extension }

/-- `buildOrder` of limit_order.js (lines 35-61).  The `catch` only prints the
error: the function then runs off its end and returns `undefined`, here
`none`. -/
def buildOrder (authKey : String) (chainId : Nat) (answer : HttpOutcome) :
    Run (Option BuiltOrder) :=
  let url := "https://api.1inch.dev/orderbook/v4.0/" ++ toString chainId ++ "/build"
  let trace := [Event.axiosGet url ("Bearer " ++ authKey)]
  match answer with
  | .rejected _ => ⟨trace, .ok none⟩
  | .fulfilled data =>
    match readOrder data with
    | .threw _ => ⟨trace, .ok none⟩
    | .ok built => ⟨trace, .ok (some built)⟩

end LimitOrder

/-! ## fusion_plus.js: secrets, commitment and `main` -/

/-- A failing step ends the computation; a value is passed on. -/
def Settled.andThen {α β : Type} (step : Settled α) (next : α → Settled β) : Settled β :=
  match step with
  | .threw e => .threw e
  | .ok a => next a

/-- `Array.prototype.map` with a callback that may throw: the elements are
visited in order and the first error is the error of the whole. -/
def Settled.mapAll {α β : Type} (f : α → Settled β) : List α → Settled (List β)
  | [] => .ok []
  | x :: rest =>
    match f x with
    | .threw e => .threw e
    | .ok y =>
      match Settled.mapAll f rest with
      | .threw e => .threw e
      | .ok ys => .ok (y :: ys)

/-- What `randomBytes(32)` returns: 32 bytes. -/
structure Bytes32 where
  bytes : List Nat
  size : bytes.length = 32
  small : ∀ b ∈ bytes, b < 256

/-- The hexadecimal digit of a value below 16, in lower case. -/
def hexDigit (d : Nat) : Char :=
  if d < 10 then Char.ofNat (48 + d) else Char.ofNat (87 + d)

/-- `Buffer.prototype.toString("hex")`: two digits a byte, high digit first. -/
def toHex (bytes : List Nat) : String :=
  String.mk (bytes.flatMap fun b => [hexDigit (b / 16), hexDigit (b % 16)])

/-- The value of a hexadecimal digit in lower case. -/
def hexValue (c : Char) : Option Nat :=
  if 48 ≤ c.toNat ∧ c.toNat ≤ 57 then some (c.toNat - 48)
  else if 97 ≤ c.toNat ∧ c.toNat ≤ 102 then some (c.toNat - 87)
  else none

/-- The bytes a string of hexadecimal digits encodes, two digits a byte. -/
def fromHex : List Char → Option (List Nat)
  | [] => some []
  | [_] => none
  | high :: low :: rest =>
    match hexValue high, hexValue low, fromHex rest with
    | some h, some l, some bytes => some ((16 * h + l) :: bytes)
    | _, _, _ => none

namespace FusionPlus

/-- Modelled from the spec: the static functions of the `HashLock` class of
the venue SDK (`@1inch/cross-chain-sdk`), which is not part of the
repository.  `Lock` is the type of a hash lock, `Leaf` of a Merkle leaf; any
of the functions may throw. -/
structure HashLockSdk (Lock Leaf : Type) where
  forSingleFill : String → Settled Lock
  forMultipleFills : List Leaf → Settled Lock
  getMerkleLeaves : List String → Settled (List Leaf)
  hashSecret : String → Settled String

/-- The `secrets` of `main` (lines 167-169): `secretsCount` strings, the k-th
being `0x` followed by the k-th 32 random bytes in hexadecimal. -/
def secrets (secretsCount : Nat) (randomBytes : Nat → Bytes32) : List String :=
  (List.range secretsCount).map fun k => "0x" ++ toHex (randomBytes k).bytes

/-- The `hashLock` of `main` (lines 171-174). -/
def hashLock {Lock Leaf : Type} (sdk : HashLockSdk Lock Leaf) (secrets : List String) :
    Settled Lock :=
  if h : secrets.length = 1 then
    sdk.forSingleFill (secrets.get ⟨0, by omega⟩)
  else
    (sdk.getMerkleLeaves secrets).andThen sdk.forMultipleFills

/-- The `secretHashes` of `main` (line 176). -/
def secretHashes {Lock Leaf : Type} (sdk : HashLockSdk Lock Leaf) (secrets : List String) :
    Settled (List String) :=
  Settled.mapAll sdk.hashSecret secrets

/-- The values `main` holds when it calls `sdk.createOrder`: the secrets, and
the `hashLock` and `secretHashes` it passes. -/
structure Commitment (Lock : Type) where
  secrets : List String
  hashLock : Lock
  secretHashes : List String

/-- The answers of the venue to the calls of one `main`. -/
structure Venue where
  /-- `sdk.getQuote(...)`: the `secretsCount` of the preset `fast`. -/
  getQuote : Settled Nat
  /-- `sdk.createOrder(...)`: the `hash` of the order. -/
  createOrder : Settled String
  submitOrder : Settled Unit
  /-- The answers during pass `k` of the loop. -/
  ticks : Nat → Tick
  /-- `sdk.getOrderStatus(hash)` after the loop (line 225). -/
  getOrderStatus : Settled String
  /-- The request of `checkOrderStatus` (line 231). -/
  checkOrderStatus : HttpOutcome

/-- A finished `main`: its calls, what it had committed to when it called
`sdk.createOrder` (`none` if it did not get there), and how it ended. -/
structure MainRun (Lock : Type) where
  trace : List Event
  created : Option (Commitment Lock)
  result : Settled Unit

/-- `config.srcTokenAddress` (line 20). -/
def srcTokenAddress : String := "0x4200000000000000000000000000000000000006"

/-- The spender the allowance is granted to (line 155). -/
def allowanceTarget : String := "0x111111125421cA6dc452d289314280a0f8842A65"

/-- `config.amount` (line 22): 0.002 with 18 decimals. -/
def amount : Nat := 2000000000000000

/-- `main` of fusion_plus.js (lines 142-236).  Nothing catches before the
last status query, so an error of any earlier call ends `main` with that
error; the error of the last query is only printed. -/
def main {Lock Leaf : Type} (walletAddress authKey : String) (venue : Venue) (chain : Chain)
    (sdk : HashLockSdk Lock Leaf) (randomBytes : Nat → Bytes32) (fuel : Nat) :
    Option (MainRun Lock) :=
  let t1 := [Event.getQuote]
  match venue.getQuote with
  | .threw e => some ⟨t1, none, .threw e⟩
  | .ok secretsCount =>
    let allowed := checkAndSetAllowance walletAddress chain srcTokenAddress allowanceTarget
      amount
    let t2 := t1 ++ allowed.trace
    match allowed.result with
    | .threw e => some ⟨t2, none, .threw e⟩
    | .ok _ =>
      let generated := secrets secretsCount randomBytes
      match hashLock sdk generated with
      | .threw e => some ⟨t2, none, .threw e⟩
      | .ok lock =>
        match secretHashes sdk generated with
        | .threw e => some ⟨t2, none, .threw e⟩
        | .ok hashes =>
          let committed : Commitment Lock :=
            { secrets := generated, hashLock := lock, secretHashes := hashes }
          let t3 := t2 ++ [Event.sleep 1000, Event.createOrder]
          match venue.createOrder with
          | .threw e => some ⟨t3, some committed, .threw e⟩
          | .ok hash =>
            let t4 := t3 ++ [Event.sleep 1000, Event.submitOrder]
            match venue.submitOrder with
            | .threw e => some ⟨t4, some committed, .threw e⟩
            | .ok _ =>
              match monitorLoop hash generated venue.ticks fuel 0 t4 with
              | none => none
              | some ⟨t5, .threw e⟩ => some ⟨t5, some committed, .threw e⟩
              | some ⟨t5, .ok _⟩ =>
                let t6 := t5 ++ [Event.sleep 1000, Event.getOrderStatus hash]
                match venue.getOrderStatus with
                | .threw e => some ⟨t6, some committed, .threw e⟩
                | .ok _ =>
                  let checked := checkOrderStatus hash authKey venue.checkOrderStatus
                  some ⟨t6 ++ checked.trace, some committed, .ok ()⟩

end FusionPlus

/-! ## Vocabulary for the statements about the allowance guard and the queries -/

/-- Modelled from the spec: the allowance record, `(token, owner, spender)`
to the amount currently authorised.  The token contracts that hold it are
not part of the repository. -/
structure AllowanceRecord where
  amount : String → String → String → Nat

/-- The record after a confirmed `approve(spender, value)` by `owner` on
`token`: that one entry is `value`, every other entry is as before. -/
def AllowanceRecord.approve (record : AllowanceRecord) (token owner spender : String)
    (value : Nat) : AllowanceRecord :=
  { amount := fun t o s =>
      if t = token ∧ o = owner ∧ s = spender then value else record.amount t o s }

/-- The record after the `approve` transactions of a trace, sent by `owner`,
have been confirmed. -/
def AllowanceRecord.confirm (record : AllowanceRecord) (owner : String) :
    List Event → AllowanceRecord
  | [] => record
  | .approve token spender value _ _ :: rest =>
    (record.approve token owner spender value).confirm owner rest
  | _ :: rest => record.confirm owner rest

/-- The chain as a call sees it: the allowance read answers from the record,
the other calls as `net` says. -/
def AllowanceRecord.chain (record : AllowanceRecord) (net : Chain)
    (token owner spender : String) : Chain :=
  { net with allowance := .ok (record.amount token owner spender) }

/-- One call of a copy of `checkAndSetAllowance` against the record: the
allowance read answers from the record, the other calls as `net` says, and
the record changes only when the call returns `true`, that is when its
approval was confirmed. -/
def onRecord (check : String → Chain → String → String → Nat → Run Bool)
    (record : AllowanceRecord) (net : Chain) (walletAddress tokenAddress spenderAddress : String)
    (amount : Nat) : Run Bool × AllowanceRecord :=
  let run := check walletAddress
    (record.chain net tokenAddress walletAddress spenderAddress)
    tokenAddress spenderAddress amount
  (run, if run.result = .ok true then record.confirm walletAddress run.trace else record)

/-- A record in which nothing has been granted. -/
def nothingGranted : AllowanceRecord := { amount := fun _ _ _ => 0 }

/-- The four status queries of the repository, each with its arguments
fixed: `checkOrderStatus` of check_transaction.js and of fusion_plus.js,
`checkOrderStatusHTTP` of fusion.js and of limit_order.js. -/
def IsStatusQuery (stringify : Json → String) (query : HttpOutcome → Run Json) : Prop :=
  (∃ authKey orderHash, query = CheckTransaction.checkOrderStatus authKey orderHash) ∨
  (∃ orderHash authKey, query = FusionPlus.checkOrderStatus orderHash authKey) ∨
  (∃ orderHash chainId authKey,
    query = Fusion.checkOrderStatusHTTP stringify orderHash chainId authKey) ∨
  (∃ chainId orderHash authKey,
    query = LimitOrder.checkOrderStatusHTTP stringify chainId orderHash authKey)

/-- The message the spec gives a failed request, by precedence: a response
gives `API Error: <status> - <body>`, the body put in by the template literal
or by `JSON.stringify`; otherwise a request gives `No response received from
server`; otherwise `Request Error: <message>`. -/
def describes (error : AxiosError) (stringify : Json → String) (message : String) : Prop :=
  match error.response with
  | some response =>
    message = "API Error: " ++ toString response.status ++ " - " ++ response.data.coerce ∨
    message = "API Error: " ++ toString response.status ++ " - " ++ stringify response.data
  | none =>
    if error.request then message = "No response received from server"
    else message = "Request Error: " ++ error.message

/-- A rejection of the venue with status `status` and the structured body
that has the one field `error`, holding `reason`. -/
def rejection (status : Nat) (reason : String) : HttpOutcome :=
  .rejected
    { response := some { status := status, data := .obj [("error", .str reason)] },
      request := true, message := "Request failed with status code " ++ toString status }

namespace Fusion

/-- The calls of the allowance guard in a trace: allowance reads, gas price
reads, `approve` transactions and waits for a confirmation. -/
def allowanceCalls (trace : List Event) : List Event :=
  trace.filter fun e =>
    match e with
    | .allowance _ _ _ => true
    | .getGasPrice => true
    | .approve _ _ _ _ _ => true
    | .wait _ => true
    | _ => false

/-- The number of `createOrder` and `submitOrder` calls in a trace. -/
def ordersPlaced (trace : List Event) : Nat :=
  trace.countP fun e =>
    match e with
    | .createOrder => true
    | .submitOrder => true
    | _ => false

end Fusion

namespace FusionPlus

/-- The calls `main` makes for one ready fill (lines 205-209). -/
def fillCalls (hash : String) (secrets : List String) (idx : Nat) : List Event :=
  [Event.sleep 1000, Event.submitSecret hash secrets[idx]?]

/-- A stand-in for the `HashLock` functions of the SDK: each tags its input,
none throws. -/
def sampleSdk : HashLockSdk String String :=
  { forSingleFill := fun secret => .ok ("single:" ++ secret),
    forMultipleFills := fun leaves => .ok ("merkle:" ++ String.intercalate "," leaves),
    getMerkleLeaves := fun secrets => .ok (secrets.map fun secret => "leaf:" ++ secret),
    hashSecret := fun secret => .ok ("hash:" ++ secret) }

/-- The `k`-th 32 random bytes of the samples: every byte is `k` modulo 256. -/
def sampleBytes (k : Nat) : Bytes32 :=
  { bytes := List.replicate 32 (k % 256),
    size := List.length_replicate 32 (k % 256),
    small := fun b hb => by
      rw [List.eq_of_mem_replicate hb]
      exact Nat.mod_lt k (by decide) }

/-- A venue whose quote asks for three secrets; every call succeeds and the
order is `Executed` at the second poll. -/
def sampleVenue : Venue :=
  { getQuote := .ok 3, createOrder := .ok "0xhash", submitOrder := .ok (),
    ticks := readyTwice, getOrderStatus := .ok OrderStatus.Executed,
    checkOrderStatus := .fulfilled (.obj [("status", .str "executed")]) }

/-- The venue reports fills 1 and 0 ready, in that order; the order is
`Pending`. -/
def readyOneZero : Tick :=
  { fills := .ok [1, 0], submitSecret := fun _ => .ok (), status := .ok OrderStatus.Pending }

end FusionPlus

namespace FusionPlus

/-- `main` builds the commitment `c` and passes it to `sdk.createOrder`:
every `main` that has ended got as far as `createOrder` holding `c`; when
`createOrder` raises, `main` ends there, holding `c`; and when the venue
calls succeed and the order finishes at pass `d` of the loop, `main` ends
normally, holding `c`, as soon as the fuel covers `d + 1` passes. -/
def Commits {Lock Leaf : Type} (walletAddress authKey : String) (venue : Venue)
    (chain : Chain) (sdk : HashLockSdk Lock Leaf) (randomBytes : Nat → Bytes32)
    (c : Commitment Lock) : Prop :=
  (∀ fuel, main walletAddress authKey venue chain sdk randomBytes fuel = none ∨
    ∃ run, main walletAddress authKey venue chain sdk randomBytes fuel = some run ∧
      run.created = some c) ∧
  (∀ e, venue.createOrder = .threw e → ∀ fuel,
    main walletAddress authKey venue chain sdk randomBytes fuel =
      some ⟨[Event.getQuote] ++
        (checkAndSetAllowance walletAddress chain srcTokenAddress allowanceTarget
          amount).trace ++ [Event.sleep 1000, Event.createOrder], some c, .threw e⟩) ∧
  (∀ hash d status, venue.createOrder = .ok hash → venue.submitOrder = .ok () →
    (∀ k, (venue.ticks k).succeeds) → (∀ k, k < d → ¬ (venue.ticks k).finished) →
    (venue.ticks d).finished → venue.getOrderStatus = .ok status →
    ∀ fuel, d < fuel →
      ∃ tr, main walletAddress authKey venue chain sdk randomBytes fuel =
        some ⟨tr, some c, .ok ()⟩)

/-- A venue whose quote asks for one secret; every call succeeds and the
order is `Executed` at the second poll. -/
def sampleVenueOne : Venue :=
  { getQuote := .ok 1, createOrder := .ok "0xhash", submitOrder := .ok (),
    ticks := readyTwice, getOrderStatus := .ok OrderStatus.Executed,
    checkOrderStatus := .fulfilled (.obj [("status", .str "executed")]) }

end FusionPlus

/-! ## The sequence of calls and the final status check of `executeFusionSwap` -/

namespace Fusion

/-- The calls of the allowance step of `executeFusionSwap` (lines 196-208):
none for the native asset, those of `checkAndSetAllowance` otherwise. -/
def guardCalls (walletAddress : String) (chain : Chain) (swapParams : SwapParams) :
    List Event :=
  if toLowerCase swapParams.fromTokenAddress = nativeToken then []
  else (checkAndSetAllowance walletAddress chain swapParams.fromTokenAddress
    baseRouterAddress swapParams.amount).trace

/-- The final HTTP status check of `executeFusionSwap` (lines 276-286).
`authKey` is what the identifier `authKey` is bound to where the call is
written, `none` when no such name is declared: evaluating the argument then
raises a ReferenceError before any request is made.  Whatever is raised
inside the `try` is caught and printed; a status that is returned is printed
too. -/
def finalHttpCheck (stringify : Json → String) (authKey : Option String)
    (orderHash : String) (answer : HttpOutcome) : Run Unit :=
  let attempt : Run Json :=
    match authKey with
    | none => ⟨[], .threw "ReferenceError: authKey is not defined"⟩
    | some key => checkOrderStatusHTTP stringify orderHash 8453 key answer
  match attempt.result with
  | .ok _ => ⟨attempt.trace, .ok ()⟩
  | .threw _ => ⟨attempt.trace, .ok ()⟩

/-- `executeFusionSwap` (lines 157-298) with the final HTTP status check
written out, for any binding of the identifier `authKey` and any answer to
the request.  fusion.js declares no `authKey` (the key is `config.authKey`):
that is the binding `none`, and `executeFusionSwap` above. -/
def executeFusionSwapWith (stringify : Json → String) (authKey : Option String)
    (answer : HttpOutcome) (walletAddress : String) (venue : Venue) (chain : Chain)
    (startTime fuel : Nat) (swapParams : SwapParams) : Option (Run SwapResult) :=
  let submitted := submitPhase walletAddress venue chain swapParams
  match submitted.result with
  | .threw e => some ⟨submitted.trace, .threw e⟩
  | .ok orderHash =>
    match monitorLoop orderHash venue.getOrderStatus startTime fuel
        { now := startTime, lastStatus := "", polls := 0, trace := submitted.trace } with
    | none => none
    | some m =>
      let executionTime : ℚ := ((m.now - startTime : Nat) : ℚ) / 1000
      let checked := finalHttpCheck stringify authKey orderHash answer
      some ⟨m.trace ++ checked.trace, .ok
        { orderHash := orderHash, executionTime := executionTime,
          finalStatus := m.lastStatus }⟩

/-- The venue's HTTP endpoint says the order is cancelled. -/
def saysCancelled : HttpOutcome := .fulfilled (.obj [("status", .str "cancelled")])

end Fusion

/-! ## The monitor of fusion.js: lemmas -/

namespace Fusion

theorem monitorIter_threw (h : String) (st : Nat) (p : Poll) (m : Monitor) (e : String)
    (hp : p.response = .threw e) :
    monitorIter h st p m =
      ({ now := m.now + 2000 + p.took + 5000, lastStatus := m.lastStatus,
         polls := m.polls + 1,
         trace := m.trace ++ [Event.sleep 2000, Event.getOrderStatus h, Event.sleep 5000] },
       false) := by
  simp [monitorIter, hp]

theorem monitorIter_ok_flag (h : String) (st : Nat) (p : Poll) (m : Monitor) (s : String)
    (hp : p.response = .ok s) :
    ((monitorIter h st p m).2 = true ↔
      (isTerminal s ∨ 300000 < m.now + 2000 + p.took - st)) := by
  simp only [monitorIter, hp, isTerminal]
  split_ifs <;> simp_all

theorem monitorIter_ok_state (h : String) (st : Nat) (p : Poll) (m : Monitor) (s : String)
    (hp : p.response = .ok s) :
    (monitorIter h st p m).1 =
      { now := m.now + 2000 + p.took, lastStatus := s, polls := m.polls + 1,
        trace := m.trace ++ [Event.sleep 2000, Event.getOrderStatus h] ++
          (if s ≠ m.lastStatus then [Event.logStatus s] else []) } := by
  simp only [monitorIter, hp]
  split_ifs <;> simp_all

theorem monitorIter_flag (h : String) (st : Nat) (p : Poll) (m : Monitor) :
    (monitorIter h st p m).2 = true ↔
      ∃ s, p.response = .ok s ∧ (isTerminal s ∨ 300000 < m.now + 2000 + p.took - st) := by
  cases hp : p.response with
  | ok s => simp [monitorIter_ok_flag h st p m s hp]
  | threw e => simp [monitorIter_threw h st p m e hp]

theorem monitorIter_polls (h : String) (st : Nat) (p : Poll) (m : Monitor) :
    (monitorIter h st p m).1.polls = m.polls + 1 := by
  cases hp : p.response with
  | ok s => simp [monitorIter_ok_state h st p m s hp]
  | threw e => simp [monitorIter_threw h st p m e hp]

theorem monitorIter_pollsMade (h : String) (st : Nat) (p : Poll) (m : Monitor) :
    pollsMade (monitorIter h st p m).1.trace = pollsMade m.trace + 1 := by
  cases hp : p.response with
  | ok s =>
    rw [monitorIter_ok_state h st p m s hp]
    by_cases hs : s = m.lastStatus <;> simp [pollsMade, hs, List.countP_append, List.countP_cons]
  | threw e => simp [monitorIter_threw h st p m e hp, pollsMade, List.countP_append, List.countP_cons]

theorem monitorIter_reports (h : String) (st : Nat) (p : Poll) (m : Monitor) :
    reports (monitorIter h st p m).1.trace = reports m.trace ++
      (match p.response with
       | .ok s => if s ≠ m.lastStatus then [s] else []
       | .threw _ => []) := by
  cases hp : p.response with
  | ok s =>
    rw [monitorIter_ok_state h st p m s hp]
    by_cases hs : s = m.lastStatus <;> simp [reports, hs, List.filterMap_append]
  | threw e => simp [monitorIter_threw h st p m e hp, reports, List.filterMap_append]


theorem monitorIter_now (h : String) (st : Nat) (p : Poll) (m : Monitor) :
    (monitorIter h st p m).1.now = m.now + 2000 + p.took +
      (match p.response with
       | .ok _ => 0
       | .threw _ => 5000) := by
  cases hp : p.response with
  | ok s => simp [monitorIter_ok_state h st p m s hp]
  | threw e => simp [monitorIter_threw h st p m e hp]

theorem monitorIter_lastStatus (h : String) (st : Nat) (p : Poll) (m : Monitor) :
    (monitorIter h st p m).1.lastStatus =
      (match p.response with
       | .ok s => s
       | .threw _ => m.lastStatus) := by
  cases hp : p.response with
  | ok s => simp [monitorIter_ok_state h st p m s hp]
  | threw e => simp [monitorIter_threw h st p m e hp]

theorem monitorLoop_succ (h : String) (g : Nat → Poll) (st fuel : Nat) (m : Monitor) :
    monitorLoop h g st (fuel + 1) m =
      if (monitorIter h st (g m.polls) m).2 = true then
        some (monitorIter h st (g m.polls) m).1
      else monitorLoop h g st fuel (monitorIter h st (g m.polls) m).1 := by
  rw [monitorLoop]
  rcases hit : monitorIter h st (g m.polls) m with ⟨m1, b⟩
  cases b <;> simp

/-- The state at the break comes from a pass that started in a state every
earlier pass led to. -/
theorem monitorLoop_exit (h : String) (g : Nat → Poll) (st : Nat) (I : Monitor → Prop)
    (hstep : ∀ m, I m → (monitorIter h st (g m.polls) m).2 = false →
      I (monitorIter h st (g m.polls) m).1) :
    ∀ (fuel : Nat) (m m1 : Monitor), I m → monitorLoop h g st fuel m = some m1 →
      ∃ m0, I m0 ∧ monitorIter h st (g m0.polls) m0 = (m1, true) := by
  intro fuel
  induction fuel with
  | zero => intro m m1 _ hloop; simp [monitorLoop] at hloop
  | succ fuel ih =>
    intro m m1 hI hloop
    rw [monitorLoop_succ] at hloop
    by_cases hb : (monitorIter h st (g m.polls) m).2 = true
    · rw [if_pos hb] at hloop
      refine ⟨m, hI, ?_⟩
      rw [Prod.ext_iff]
      exact ⟨Option.some.inj hloop, hb⟩
    · rw [if_neg hb] at hloop
      exact ih _ m1 (hstep m hI (by simpa using hb)) hloop

theorem leavesAt_iff_flag (h : String) (g : Nat → Poll) (st : Nat) (m : Monitor)
    (hclock : m.now = clockAt g st m.polls) :
    (monitorIter h st (g m.polls) m).2 = true ↔ leavesAt g st m.polls := by
  rw [monitorIter_flag, leavesAt, elapsedAt, hclock]

theorem clock_step (h : String) (g : Nat → Poll) (st : Nat) (m : Monitor)
    (hclock : m.now = clockAt g st m.polls) :
    (monitorIter h st (g m.polls) m).1.now =
      clockAt g st (monitorIter h st (g m.polls) m).1.polls := by
  rw [monitorIter_now, monitorIter_polls, clockAt, hclock]

/-- While no poll ends the monitor, the loop is running. -/
theorem monitorLoop_running (h : String) (g : Nat → Poll) (st : Nat) :
    ∀ (fuel : Nat) (m : Monitor), m.now = clockAt g st m.polls →
      (∀ j, m.polls ≤ j → j < m.polls + fuel → ¬ leavesAt g st j) →
      monitorLoop h g st fuel m = none := by
  intro fuel
  induction fuel with
  | zero => intro m _ _; simp [monitorLoop]
  | succ fuel ih =>
    intro m hclock hno
    rw [monitorLoop_succ]
    have hb : ¬ (monitorIter h st (g m.polls) m).2 = true := by
      rw [leavesAt_iff_flag h g st m hclock]
      exact hno m.polls (le_refl _) (by omega)
    rw [if_neg hb]
    apply ih _ (clock_step h g st m hclock)
    intro j hj1 hj2
    rw [monitorIter_polls] at hj1 hj2
    exact hno j (by omega) (by omega)

/-- The loop breaks at the first poll that ends the monitor. -/
theorem monitorLoop_leaves (h : String) (g : Nat → Poll) (st : Nat) :
    ∀ (d : Nat) (m : Monitor), m.now = clockAt g st m.polls →
      (∀ j, m.polls ≤ j → j < m.polls + d → ¬ leavesAt g st j) →
      leavesAt g st (m.polls + d) →
      ∀ fuel, d < fuel → ∃ m1, monitorLoop h g st fuel m = some m1 ∧
        m1.polls = m.polls + d + 1 ∧
        m1.now = clockAt g st (m.polls + d) + 2000 + (g (m.polls + d)).took ∧
        (g (m.polls + d)).response = .ok m1.lastStatus := by
  intro d
  induction d with
  | zero =>
    intro m hclock _ hleave fuel hfuel
    obtain ⟨fuel, rfl⟩ : ∃ f, fuel = f + 1 := ⟨fuel - 1, by omega⟩
    rw [monitorLoop_succ]
    have hb : (monitorIter h st (g m.polls) m).2 = true :=
      (leavesAt_iff_flag h g st m hclock).mpr hleave
    rw [if_pos hb]
    obtain ⟨s, hs, _⟩ := hleave
    simp only [Nat.add_zero] at hs ⊢
    refine ⟨_, rfl, monitorIter_polls h st _ m, ?_, ?_⟩
    · rw [monitorIter_now, hs, hclock]; rfl
    · rw [monitorIter_lastStatus, hs]
  | succ d ih =>
    intro m hclock hno hleave fuel hfuel
    obtain ⟨fuel, rfl⟩ : ∃ f, fuel = f + 1 := ⟨fuel - 1, by omega⟩
    rw [monitorLoop_succ]
    have hb : ¬ (monitorIter h st (g m.polls) m).2 = true := by
      rw [leavesAt_iff_flag h g st m hclock]
      exact hno m.polls (le_refl _) (by omega)
    rw [if_neg hb]
    have hp := monitorIter_polls h st (g m.polls) m
    have hidx : (monitorIter h st (g m.polls) m).1.polls + d = m.polls + (d + 1) := by omega
    have := ih _ (clock_step h g st m hclock)
      (by intro j hj1 hj2; exact hno j (by omega) (by omega))
      (by rw [hidx]; exact hleave) fuel (by omega)
    rw [hidx] at this
    obtain ⟨m1, h1, h2, h3, h4⟩ := this
    exact ⟨m1, h1, by omega, h3, h4⟩


theorem observed_succ (g : Nat → Poll) (n : Nat) :
    observed g (n + 1) = observed g n ++
      (match (g n).response with
       | .ok s => [s]
       | .threw _ => []) := by
  simp only [observed, List.range_succ, List.filterMap_append]
  cases hp : (g n).response <;> simp [hp]

theorem transitions_snoc (s : String) :
    ∀ (xs : List String) (previous : String),
      transitions previous (xs ++ [s]) =
        transitions previous xs ++ (if s ≠ xs.getLastD previous then [s] else []) := by
  intro xs
  induction xs with
  | nil => intro previous; simp [transitions]
  | cons x xs ih =>
    intro previous
    rw [List.cons_append, transitions, transitions, ih x, List.getLastD_cons,
      List.append_assoc]

theorem pollsMade_append (a b : List Event) :
    pollsMade (a ++ b) = pollsMade a + pollsMade b := by
  simp [pollsMade, List.countP_append]

theorem reports_append (a b : List Event) : reports (a ++ b) = reports a ++ reports b := by
  simp [reports, List.filterMap_append]

theorem checkAndSetAllowance_quiet (w : String) (chain : Chain) (token spender : String)
    (amount : Nat) :
    pollsMade (checkAndSetAllowance w chain token spender amount).trace = 0 ∧
      reports (checkAndSetAllowance w chain token spender amount).trace = [] := by
  cases hr : chain.allowance <;> cases hg : chain.getGasPrice <;>
    cases ha : chain.approve <;> cases hw : chain.wait <;>
    simp only [checkAndSetAllowance, hr, hg, ha, hw] <;>
    (try split_ifs) <;> simp [pollsMade, reports]

theorem submitPhase_quiet (w : String) (venue : Venue) (chain : Chain) (p : SwapParams) :
    pollsMade (submitPhase w venue chain p).trace = 0 ∧
      reports (submitPhase w venue chain p).trace = [] := by
  have hq := checkAndSetAllowance_quiet w chain p.fromTokenAddress baseRouterAddress p.amount
  have hstep : ∀ r : Run Bool,
      r = (if (!decide (toLowerCase p.fromTokenAddress = nativeToken)) = true then
        checkAndSetAllowance w chain p.fromTokenAddress baseRouterAddress p.amount
        else ⟨[], .ok false⟩) → pollsMade r.trace = 0 ∧ reports r.trace = [] := by
    rintro r rfl
    split_ifs
    · exact hq
    · simp [pollsMade, reports]
  simp only [submitPhase]
  generalize hr : (if (!decide (toLowerCase p.fromTokenAddress = nativeToken)) = true then
        checkAndSetAllowance w chain p.fromTokenAddress baseRouterAddress p.amount
        else (⟨[], .ok false⟩ : Run Bool)) = r
  obtain ⟨h1, h2⟩ := hstep r hr.symm
  cases venue.getQuote <;> cases r.result <;> cases venue.createOrder <;>
    cases venue.submitOrder <;>
    simp [pollsMade, reports, List.countP_append, List.filterMap_append] at h1 h2 ⊢ <;>
    exact ⟨h1, h2⟩

theorem traced_step (h : String) (g : Nat → Poll) (st : Nat) (m : Monitor)
    (hm : Traced g m) : Traced g (monitorIter h st (g m.polls) m).1 := by
  obtain ⟨h1, h2, h3⟩ := hm
  refine ⟨?_, ?_, ?_⟩
  · rw [monitorIter_pollsMade, monitorIter_polls, h1]
  · rw [monitorIter_reports, monitorIter_polls, observed_succ, h2]
    cases hp : (g m.polls).response with
    | ok s => simp only []; rw [transitions_snoc, h3]
    | threw e => simp
  · rw [monitorIter_lastStatus, monitorIter_polls, observed_succ]
    cases hp : (g m.polls).response with
    | ok s => simp
    | threw e => simpa using h3


theorem inv_init (g : Nat → Poll) (st : Nat) (trace : List Event)
    (h1 : pollsMade trace = 0) (h2 : reports trace = []) :
    Inv g st { now := st, lastStatus := "", polls := 0, trace := trace } := by
  refine ⟨⟨h1, ?_, ?_⟩, rfl, ?_⟩
  · simp [h2, observed, transitions]
  · simp [observed]
  · intro k hk; exact absurd hk (Nat.not_lt_zero k)

theorem inv_step (h : String) (g : Nat → Poll) (st : Nat) (m : Monitor) (hm : Inv g st m)
    (hb : (monitorIter h st (g m.polls) m).2 = false) :
    Inv g st (monitorIter h st (g m.polls) m).1 := by
  obtain ⟨h1, h2, h3⟩ := hm
  refine ⟨traced_step h g st m h1, clock_step h g st m h2, ?_⟩
  intro k hk
  rw [monitorIter_polls] at hk
  rcases Nat.lt_succ_iff_lt_or_eq.mp hk with hlt | rfl
  · exact h3 k hlt
  · rw [← leavesAt_iff_flag h g st m h2, hb]; simp

theorem clockAt_ge (g : Nat → Poll) (st : Nat) : ∀ k, st ≤ clockAt g st k := by
  intro k
  induction k with
  | zero => simp [clockAt]
  | succ k ih => rw [clockAt]; omega

/-- A run that returned made `n + 1` polls, `n` being the first poll that
ends the monitor. -/
theorem executeFusionSwap_returned (w : String) (venue : Venue) (chain : Chain)
    (st fuel : Nat) (p : SwapParams) (tr : List Event) (r : SwapResult)
    (hrun : executeFusionSwap w venue chain st fuel p = some ⟨tr, .ok r⟩) :
    ∃ n, pollsMade tr = n + 1 ∧
      (∀ k < n, ¬ leavesAt venue.getOrderStatus st k) ∧
      leavesAt venue.getOrderStatus st n ∧
      (venue.getOrderStatus n).response = .ok r.finalStatus ∧
      r.executionTime = ((elapsedAt venue.getOrderStatus st n : Nat) : ℚ) / 1000 ∧
      reports tr = transitions "" (observed venue.getOrderStatus (n + 1)) ∧
      (submitPhase w venue chain p).result = .ok r.orderHash := by
  unfold executeFusionSwap at hrun
  cases hsub : (submitPhase w venue chain p).result with
  | threw e => simp [hsub] at hrun
  | ok hash =>
    simp only [hsub] at hrun
    cases hloop : monitorLoop hash venue.getOrderStatus st fuel
        { now := st, lastStatus := "", polls := 0,
          trace := (submitPhase w venue chain p).trace } with
    | none => simp [hloop] at hrun
    | some m =>
      simp only [hloop, Option.some.injEq, Run.mk.injEq, Settled.ok.injEq] at hrun
      obtain ⟨rfl, rfl⟩ := hrun
      obtain ⟨hq1, hq2⟩ := submitPhase_quiet w venue chain p
      obtain ⟨m0, ⟨htr, hclock, hno⟩, hit⟩ :=
        monitorLoop_exit hash venue.getOrderStatus st (Inv venue.getOrderStatus st)
          (inv_step hash venue.getOrderStatus st) fuel _ m
          (inv_init venue.getOrderStatus st _ hq1 hq2) hloop
      have hflag : (monitorIter hash st (venue.getOrderStatus m0.polls) m0).2 = true := by
        rw [hit]
      have hleave := (leavesAt_iff_flag hash venue.getOrderStatus st m0 hclock).mp hflag
      have hm : m = (monitorIter hash st (venue.getOrderStatus m0.polls) m0).1 := by
        rw [hit]
      obtain ⟨t1, t2, t3⟩ := traced_step hash venue.getOrderStatus st m0 htr
      rw [← hm] at t1 t2 t3
      have hpolls : m.polls = m0.polls + 1 := by rw [hm, monitorIter_polls]
      obtain ⟨s, hs, hs2⟩ := hleave
      have hlast : m.lastStatus = s := by rw [hm, monitorIter_lastStatus, hs]
      have hnow : m.now = clockAt venue.getOrderStatus st m0.polls + 2000 +
          (venue.getOrderStatus m0.polls).took := by
        rw [hm, monitorIter_now, hs, hclock]; rfl
      refine ⟨m0.polls, by rw [t1, hpolls], hno, ⟨s, hs, hs2⟩, ?_, ?_, ?_, rfl⟩
      · simp only [hlast, hs]
      · simp only [elapsedAt, hnow]
      · rw [t2, hpolls]


/-- With enough fuel the run returns at the first poll that ends the monitor. -/
theorem executeFusionSwap_leaves (w : String) (venue : Venue) (chain : Chain)
    (st : Nat) (p : SwapParams) (hash : String)
    (hsub : (submitPhase w venue chain p).result = .ok hash) (n : Nat)
    (hno : ∀ k < n, ¬ leavesAt venue.getOrderStatus st k)
    (hleave : leavesAt venue.getOrderStatus st n) (fuel : Nat) (hfuel : n < fuel) :
    ∃ tr r, executeFusionSwap w venue chain st fuel p = some ⟨tr, .ok r⟩ ∧
      pollsMade tr = n + 1 ∧ r.orderHash = hash ∧
      (venue.getOrderStatus n).response = .ok r.finalStatus ∧
      r.executionTime = ((elapsedAt venue.getOrderStatus st n : Nat) : ℚ) / 1000 := by
  obtain ⟨m1, hloop, _, _, _⟩ :=
    monitorLoop_leaves hash venue.getOrderStatus st n
      { now := st, lastStatus := "", polls := 0, trace := (submitPhase w venue chain p).trace }
      rfl (by intro j _ hj; exact hno j (by simpa using hj)) (by simpa using hleave) fuel hfuel
  have hrun : executeFusionSwap w venue chain st fuel p = some ⟨m1.trace, .ok
      { orderHash := hash, executionTime := ((m1.now - st : Nat) : ℚ) / 1000,
        finalStatus := m1.lastStatus }⟩ := by
    simp only [executeFusionSwap, hsub, hloop]
  obtain ⟨n1, h1, h2, h3, h4, h5, _, _⟩ :=
    executeFusionSwap_returned w venue chain st fuel p _ _ hrun
  have hn : n1 = n := by
    rcases Nat.lt_trichotomy n1 n with hlt | heq | hgt
    · exact absurd h3 (hno n1 hlt)
    · exact heq
    · exact absurd hleave (h2 n hgt)
  subst hn
  exact ⟨_, _, hrun, h1, rfl, h4, h5⟩

/-- While no poll ends the monitor the run has not returned. -/
theorem executeFusionSwap_running (w : String) (venue : Venue) (chain : Chain)
    (st : Nat) (p : SwapParams) (hash : String)
    (hsub : (submitPhase w venue chain p).result = .ok hash) (fuel : Nat)
    (hno : ∀ k < fuel, ¬ leavesAt venue.getOrderStatus st k) :
    executeFusionSwap w venue chain st fuel p = none := by
  have hloop := monitorLoop_running hash venue.getOrderStatus st fuel
    { now := st, lastStatus := "", polls := 0, trace := (submitPhase w venue chain p).trace }
    rfl (by intro j _ hj; exact hno j (by simpa using hj))
  simp only [executeFusionSwap, hsub, hloop]

/-- In the trace of every finished run the reported statuses are the
transitions of the statuses observed. -/
theorem executeFusionSwap_reports (w : String) (venue : Venue) (chain : Chain)
    (st fuel : Nat) (p : SwapParams) (run : Run SwapResult)
    (hrun : executeFusionSwap w venue chain st fuel p = some run) :
    reports run.trace =
      transitions "" (observed venue.getOrderStatus (pollsMade run.trace)) := by
  obtain ⟨tr, res⟩ := run
  cases res with
  | ok r =>
    obtain ⟨n, h1, _, _, _, _, h6, _⟩ :=
      executeFusionSwap_returned w venue chain st fuel p tr r hrun
    simp only [h1, h6]
  | threw e =>
    unfold executeFusionSwap at hrun
    cases hsub : (submitPhase w venue chain p).result with
    | threw e1 =>
      simp only [hsub, Option.some.injEq, Run.mk.injEq] at hrun
      obtain ⟨hq1, hq2⟩ := submitPhase_quiet w venue chain p
      rw [← hrun.1]
      simp [hq1, hq2, observed, transitions]
    | ok hash =>
      simp only [hsub] at hrun
      cases hloop : monitorLoop hash venue.getOrderStatus st fuel
          { now := st, lastStatus := "", polls := 0,
            trace := (submitPhase w venue chain p).trace } with
      | none => simp [hloop] at hrun
      | some m => simp [hloop] at hrun

theorem clockAt_lower (g : Nat → Poll) (st : Nat) : ∀ k, st + 2000 * k ≤ clockAt g st k := by
  intro k
  induction k with
  | zero => simp [clockAt]
  | succ k ih => rw [clockAt]; omega

/-- While no poll has ended the monitor, the clock is within the window,
the time spent in failed passes apart. -/
theorem clockAt_window (g : Nat → Poll) (st : Nat) :
    ∀ m, (∀ k < m, ¬ leavesAt g st k) → clockAt g st m ≤ st + 300000 + failedTime g m := by
  intro m
  induction m with
  | zero => intro _; rw [clockAt]; omega
  | succ m ih =>
    intro hno
    have hm := ih (fun k hk => hno k (Nat.lt_succ_of_lt hk))
    have hge := clockAt_ge g st m
    cases hp : (g m).response with
    | ok s =>
      have hlate : ¬ 300000 < elapsedAt g st m := fun hl =>
        hno m (Nat.lt_succ_self m) ⟨s, hp, Or.inr hl⟩
      have hc : clockAt g st (m + 1) = clockAt g st m + 2000 + (g m).took + 0 := by
        rw [clockAt, hp]
      have hf : failedTime g (m + 1) = failedTime g m + 0 := by
        rw [failedTime, hp]
      unfold elapsedAt at hlate
      omega
    | threw e =>
      have hc : clockAt g st (m + 1) = clockAt g st m + 2000 + (g m).took + 5000 := by
        rw [clockAt, hp]
      have hf : failedTime g (m + 1) = failedTime g m + (2000 + (g m).took + 5000) := by
        rw [failedTime, hp]
      omega

/-- No time is spent in failed passes when no poll fails. -/
theorem failedTime_eq_zero (g : Nat → Poll) :
    ∀ m, (∀ k < m, ∃ s, (g k).response = .ok s) → failedTime g m = 0 := by
  intro m
  induction m with
  | zero => intro _; rfl
  | succ m ih =>
    intro hok
    obtain ⟨s, hs⟩ := hok m (Nat.lt_succ_self m)
    rw [failedTime, ih (fun k hk => hok k (Nat.lt_succ_of_lt hk)), hs]
    rfl

end Fusion

/-! ## The loop of fusion_plus.js: lemmas -/

namespace FusionPlus

theorem secretsShared_append (a b : List Event) :
    secretsShared (a ++ b) = secretsShared a ++ secretsShared b := by
  simp [secretsShared, List.filterMap_append]

theorem shareSecrets_shared (hash : String) (secrets : List String)
    (submit : Nat → Settled Unit) :
    ∀ (fills : List Nat) (pos : Nat) (trace : List Event),
      (shareSecrets hash secrets submit fills pos trace).result = .ok () →
      secretsShared (shareSecrets hash secrets submit fills pos trace).trace =
        secretsShared trace ++ fills.map fun idx => secrets[idx]? := by
  intro fills
  induction fills with
  | nil => intro pos trace _; simp [shareSecrets]
  | cons idx rest ih =>
    intro pos trace hres
    rw [shareSecrets] at hres ⊢
    cases hs : submit pos with
    | threw e => simp [hs] at hres
    | ok u =>
      simp only [hs] at hres ⊢
      rw [ih _ _ hres, secretsShared_append]
      simp [secretsShared]

theorem shareSecrets_ok (hash : String) (secrets : List String)
    (submit : Nat → Settled Unit) :
    ∀ (fills : List Nat) (pos : Nat) (trace : List Event),
      (∀ j, pos ≤ j → j < pos + fills.length → submit j = .ok ()) →
      (shareSecrets hash secrets submit fills pos trace).result = .ok () := by
  intro fills
  induction fills with
  | nil => intro pos trace _; simp [shareSecrets]
  | cons idx rest ih =>
    intro pos trace hall
    rw [shareSecrets]
    have h0 := hall pos (le_refl _) (by simp)
    simp only [h0]
    apply ih
    intro j hj1 hj2
    exact hall j (by omega) (by simp only [List.length_cons]; omega)

/-- The `if` around the `for` loop changes nothing: the loop over no fills
does nothing. -/
theorem shareSecrets_guard (hash : String) (secrets : List String)
    (submit : Nat → Settled Unit) (fills : List Nat) (trace : List Event) :
    (if fills.length ≠ 0 then shareSecrets hash secrets submit fills 0 trace
      else ⟨trace, .ok ()⟩) = shareSecrets hash secrets submit fills 0 trace := by
  cases fills with
  | nil => simp [shareSecrets]
  | cons idx rest => simp

/-- A pass that does not raise shares the secret of every reported fill. -/
theorem monitorIter_shared (hash : String) (secrets : List String) (t : Tick)
    (trace : List Event) (b : Bool)
    (hres : (monitorIter hash secrets t trace).result = .ok b) :
    secretsShared (monitorIter hash secrets t trace).trace =
      secretsShared trace ++ t.reported.map fun idx => secrets[idx]? := by
  unfold monitorIter at hres ⊢
  cases hf : t.fills with
  | threw e => simp [hf] at hres
  | ok fills =>
    simp only [hf, shareSecrets_guard, Tick.reported] at hres ⊢
    cases hsh : (shareSecrets hash secrets t.submitSecret fills 0
        (trace ++ [Event.sleep 1000, Event.getReadyToAcceptSecretFills hash])).result with
    | threw e => simp [hsh] at hres
    | ok u =>
      have hshared := shareSecrets_shared hash secrets t.submitSecret fills 0 _ hsh
      simp only [hsh] at hres ⊢
      cases hst : t.status with
      | threw e => simp [hst] at hres
      | ok status =>
        simp only [hst]
        split_ifs <;>
          simp [secretsShared_append, hshared] <;> simp [secretsShared]

theorem monitorIter_succeeds (hash : String) (secrets : List String) (t : Tick)
    (trace : List Event) (hok : t.succeeds) :
    ∃ status, t.status = .ok status ∧
      (monitorIter hash secrets t trace).result = .ok (decide (isFinished status)) := by
  obtain ⟨⟨fills, hf, hsub⟩, status, hst⟩ := hok
  refine ⟨status, hst, ?_⟩
  have hsh := shareSecrets_ok hash secrets t.submitSecret fills 0
    (trace ++ [Event.sleep 1000, Event.getReadyToAcceptSecretFills hash])
    (by intro j _ hj; exact hsub j (by omega))
  simp only [monitorIter, hf, shareSecrets_guard, hsh, hst, isFinished]
  split_ifs <;> simp_all

theorem mainLoop_continue (hash : String) (secrets : List String) (venue : Nat → Tick)
    (fuel k : Nat) (trace : List Event)
    (hres : (monitorIter hash secrets (venue k) trace).result = .ok false) :
    monitorLoop hash secrets venue (fuel + 1) k trace =
      monitorLoop hash secrets venue fuel (k + 1)
        (monitorIter hash secrets (venue k) trace).trace := by
  rw [monitorLoop]; simp only [hres]

theorem mainLoop_break (hash : String) (secrets : List String) (venue : Nat → Tick)
    (fuel k : Nat) (trace : List Event)
    (hres : (monitorIter hash secrets (venue k) trace).result = .ok true) :
    monitorLoop hash secrets venue (fuel + 1) k trace =
      some ⟨(monitorIter hash secrets (venue k) trace).trace, .ok (k + 1)⟩ := by
  rw [monitorLoop]; simp only [hres]

theorem mainLoop_threw (hash : String) (secrets : List String) (venue : Nat → Tick)
    (fuel k : Nat) (trace : List Event) (e : String)
    (hres : (monitorIter hash secrets (venue k) trace).result = .threw e) :
    monitorLoop hash secrets venue (fuel + 1) k trace =
      some ⟨(monitorIter hash secrets (venue k) trace).trace, .threw e⟩ := by
  rw [monitorLoop]; simp only [hres]

/-- While the venue answers and reports no finishing status, the loop runs. -/
theorem mainLoop_running (hash : String) (secrets : List String) (venue : Nat → Tick)
    (hok : ∀ k, (venue k).succeeds) :
    ∀ (fuel k : Nat) (trace : List Event),
      (∀ j, k ≤ j → j < k + fuel → ¬ (venue j).finished) →
      monitorLoop hash secrets venue fuel k trace = none := by
  intro fuel
  induction fuel with
  | zero => intro k trace _; simp [monitorLoop]
  | succ fuel ih =>
    intro k trace hno
    obtain ⟨status, hst, hres⟩ := monitorIter_succeeds hash secrets (venue k) trace (hok k)
    have hnf : ¬ isFinished status := fun hfin =>
      hno k (le_refl _) (by omega) ⟨status, hst, hfin⟩
    rw [mainLoop_continue hash secrets venue fuel k trace (by simpa [hnf] using hres)]
    apply ih
    intro j hj1 hj2
    exact hno j (by omega) (by omega)

/-- The loop breaks in the first pass whose status finishes the order. -/
theorem mainLoop_leaves (hash : String) (secrets : List String) (venue : Nat → Tick)
    (hok : ∀ k, (venue k).succeeds) :
    ∀ (d k : Nat) (trace : List Event),
      (∀ j, k ≤ j → j < k + d → ¬ (venue j).finished) → (venue (k + d)).finished →
      ∀ fuel, d < fuel →
        ∃ tr, monitorLoop hash secrets venue fuel k trace = some ⟨tr, .ok (k + d + 1)⟩ := by
  intro d
  induction d with
  | zero =>
    intro k trace _ hfin fuel hfuel
    obtain ⟨fuel, rfl⟩ : ∃ f, fuel = f + 1 := ⟨fuel - 1, by omega⟩
    obtain ⟨status, hst, hres⟩ := monitorIter_succeeds hash secrets (venue k) trace (hok k)
    obtain ⟨s1, hs1, hfin1⟩ := hfin
    simp only [Nat.add_zero] at hs1
    rw [hst] at hs1
    have : status = s1 := Settled.ok.inj hs1
    subst this
    rw [mainLoop_break hash secrets venue fuel k trace (by simpa [hfin1] using hres)]
    exact ⟨_, rfl⟩
  | succ d ih =>
    intro k trace hno hfin fuel hfuel
    obtain ⟨fuel, rfl⟩ : ∃ f, fuel = f + 1 := ⟨fuel - 1, by omega⟩
    obtain ⟨status, hst, hres⟩ := monitorIter_succeeds hash secrets (venue k) trace (hok k)
    have hnf : ¬ isFinished status := fun hf =>
      hno k (le_refl _) (by omega) ⟨status, hst, hf⟩
    rw [mainLoop_continue hash secrets venue fuel k trace (by simpa [hnf] using hres)]
    have hidx : k + 1 + d = k + (d + 1) := by omega
    have := ih (k + 1) (monitorIter hash secrets (venue k) trace).trace
      (by intro j hj1 hj2; exact hno j (by omega) (by omega))
      (by rw [hidx]; exact hfin) fuel (by omega)
    rw [hidx] at this
    exact this

/-- A run that left by `break` shared, pass after pass, the secret of every
fill the venue reported. -/
theorem mainLoop_shared (hash : String) (secrets : List String) (venue : Nat → Tick) :
    ∀ (fuel k : Nat) (trace tr : List Event) (n : Nat),
      monitorLoop hash secrets venue fuel k trace = some ⟨tr, .ok n⟩ →
      k < n ∧ secretsShared tr = secretsShared trace ++
        ((List.range' k (n - k)).flatMap fun j => (venue j).reported).map
          fun idx => secrets[idx]? := by
  intro fuel
  induction fuel with
  | zero => intro k trace tr n h; simp [monitorLoop] at h
  | succ fuel ih =>
    intro k trace tr n h
    cases hres : (monitorIter hash secrets (venue k) trace).result with
    | threw e => simp [mainLoop_threw hash secrets venue fuel k trace e hres] at h
    | ok b =>
      have hshared := monitorIter_shared hash secrets (venue k) trace b hres
      cases b with
      | true =>
        rw [mainLoop_break hash secrets venue fuel k trace hres] at h
        simp only [Option.some.injEq, Run.mk.injEq, Settled.ok.injEq] at h
        obtain ⟨rfl, rfl⟩ := h
        refine ⟨Nat.lt_succ_self k, ?_⟩
        rw [hshared]
        simp [List.range'_one]
      | false =>
        rw [mainLoop_continue hash secrets venue fuel k trace hres] at h
        obtain ⟨hlt, hsh⟩ := ih _ _ _ _ h
        refine ⟨by omega, ?_⟩
        rw [hsh, hshared]
        have hsplit : n - k = (n - (k + 1)) + 1 := by omega
        rw [hsplit, List.range'_succ]
        simp [List.append_assoc]


theorem neverFinished_succeeds (status : String) (k : Nat) :
    (neverFinished status k).succeeds :=
  ⟨⟨[], rfl, fun _ _ => rfl⟩, status, rfl⟩

end FusionPlus

/-! ## The secrets released by the loop of fusion_plus.js -/

namespace FusionPlus

/-- C1, counterexample.  The venue reports fill 0 ready on two consecutive
polls (`Pending`, then `Executed`): the loop leaves by `break` after two
passes and has called `submitSecret` with `secrets[0]` twice, not once. -/
theorem secret_released_twice :
    (readyTwice 0).fills = .ok [0] ∧ (readyTwice 1).fills = .ok [0] ∧
    ∃ tr, monitorLoop "0xhash" sampleSecrets readyTwice 2 0 [] = some ⟨tr, .ok 2⟩ ∧
      tr.count (Event.submitSecret "0xhash" sampleSecrets[0]?) = 2 :=
  ⟨rfl, rfl, _, rfl, by decide⟩

/-- C1, amended.  The loop of `main` keeps no record of the indices it has
released: in a run that leaves by `break` after `n` passes, the secrets
passed to `submitSecret` are `secrets[idx]` for every fill index the venue
reported, pass after pass and in the reported order.  So a secret is
submitted once for every time its index is reported: an index reported `c`
times has its secret submitted at least `c` times. -/
theorem secret_shared_per_report (hash : String) (secrets : List String)
    (venue : Nat → Tick) (fuel n : Nat) (tr : List Event)
    (hrun : monitorLoop hash secrets venue fuel 0 [] = some ⟨tr, .ok n⟩) :
    secretsShared tr =
        ((List.range n).flatMap fun k => (venue k).reported).map
          (fun idx => secrets[idx]?) ∧
      ∀ i, ((List.range n).flatMap fun k => (venue k).reported).count i ≤
        (secretsShared tr).countP (fun secret => secret = secrets[i]?) := by
  obtain ⟨_, hsh⟩ := mainLoop_shared hash secrets venue fuel 0 [] tr n hrun
  have heq : secretsShared tr =
      ((List.range n).flatMap fun k => (venue k).reported).map
        (fun idx => secrets[idx]?) := by
    rw [hsh, List.range_eq_range']
    simp [secretsShared]
  refine ⟨heq, fun i => ?_⟩
  rw [heq, List.countP_map, List.count]
  apply List.countP_mono_left
  intro idx _ hidx
  have : idx = i := by simpa using hidx
  simp [this]

/-- C1, witness of the amended claim: the run in which fill 0 is reported
twice. -/
theorem secret_shared_per_report_witness :
    ∃ tr, monitorLoop "0xhash" sampleSecrets readyTwice 2 0 [] = some ⟨tr, .ok 2⟩ ∧
      secretsShared tr =
        ((List.range 2).flatMap fun k => (readyTwice k).reported).map
          (fun idx => sampleSecrets[idx]?) ∧
      ∀ i, ((List.range 2).flatMap fun k => (readyTwice k).reported).count i ≤
        (secretsShared tr).countP (fun secret => secret = sampleSecrets[i]?) :=
  ⟨_, rfl, secret_shared_per_report "0xhash" sampleSecrets readyTwice 2 2 _ rfl⟩

end FusionPlus

/-! ## The monitor of fusion.js -/

namespace Fusion

/-- C2, counterexample.  Neither venue ever returns `Filled`, `Expired` or
`Cancelled`, and every call settles at once.  When the poll made 300000 ms
after the start fails, the monitor waits 5000 ms, polls again and leaves
307 s after its start, later than the 302 s of `timeoutWindow +
pollInterval`.  When every poll fails the timeout test is never reached:
whatever the fuel, `executeFusionSwap` has not returned. -/
theorem monitor_timeout_counterexample :
    (∀ k s, (lateFailure k).response = .ok s → ¬ isTerminal s) ∧
    (∃ tr r, executeFusionSwap "0xwallet" (venueOf lateFailure) sampleChain 0 151 sampleParams
        = some ⟨tr, .ok r⟩ ∧ r.executionTime = 307 ∧
      ¬ r.executionTime * 1000 ≤ 300000 + 2000) ∧
    (∀ k s, (alwaysFailing k).response = .ok s → ¬ isTerminal s) ∧
    ∀ fuel, executeFusionSwap "0xwallet" (venueOf alwaysFailing) sampleChain 0 fuel
      sampleParams = none := by
  refine ⟨?_, ⟨_, _, rfl, ?_, ?_⟩, ?_, ?_⟩
  · intro k s hk
    unfold lateFailure at hk
    split_ifs at hk
    simp only [Settled.ok.injEq] at hk
    rw [← hk]
    decide
  · show (((307000 - 0 : Nat) : ℚ) / 1000) = 307
    norm_num
  · show ¬ (((307000 - 0 : Nat) : ℚ) / 1000) * 1000 ≤ 300000 + 2000
    norm_num
  · intro k s hk
    simp [alwaysFailing] at hk
  · intro fuel
    apply executeFusionSwap_running "0xwallet" (venueOf alwaysFailing) sampleChain 0
      sampleParams "0xorder" (by decide) fuel
    rintro k _ ⟨s, hs, _⟩
    simp [venueOf, alwaysFailing] at hs

/-- C2, amended.  In a run that reaches the monitor, in which the venue
never returns `Filled`, `Expired` or `Cancelled` and some poll from the 151st
on succeeds, the loop leaves by the timeout test and `executeFusionSwap`
returns a result instead of raising.  The time it reports is at most
`timeoutWindow + pollInterval` (300000 + 2000 ms) plus the time the last call
took plus the time spent in the passes whose poll failed; when no poll fails
the latter is zero and the loop has made at most 151 polls. -/
theorem monitor_times_out (w : String) (venue : Venue) (chain : Chain) (st : Nat)
    (p : SwapParams) (hash : String) (k0 : Nat) (s0 : String)
    (hsub : (submitPhase w venue chain p).result = .ok hash)
    (hnever : ∀ k s, (venue.getOrderStatus k).response = .ok s → ¬ isTerminal s)
    (hk0 : 150 ≤ k0) (hok : (venue.getOrderStatus k0).response = .ok s0) :
    ∃ tr r, executeFusionSwap w venue chain st (k0 + 1) p = some ⟨tr, .ok r⟩ ∧
      ¬ isTerminal r.finalStatus ∧ 0 < pollsMade tr ∧ pollsMade tr ≤ k0 + 1 ∧
      r.executionTime * 1000 ≤
        300000 + 2000 + ((venue.getOrderStatus (pollsMade tr - 1)).took : ℚ) +
          (failedTime venue.getOrderStatus (pollsMade tr - 1) : ℚ) ∧
      ((∀ k < pollsMade tr, ∃ s, (venue.getOrderStatus k).response = .ok s) →
        pollsMade tr ≤ 151 ∧
        r.executionTime * 1000 ≤
          300000 + 2000 + ((venue.getOrderStatus (pollsMade tr - 1)).took : ℚ)) := by
  classical
  have hlater : ∀ k s, 150 ≤ k → (venue.getOrderStatus k).response = .ok s →
      leavesAt venue.getOrderStatus st k := by
    intro k s hk hs
    refine ⟨s, hs, Or.inr ?_⟩
    have := clockAt_lower venue.getOrderStatus st k
    unfold elapsedAt
    omega
  have hex : ∃ n, leavesAt venue.getOrderStatus st n := ⟨k0, hlater k0 s0 hk0 hok⟩
  have hle : Nat.find hex ≤ k0 := Nat.find_min' hex (hlater k0 s0 hk0 hok)
  obtain ⟨tr, r, hrun, hpolls, _, hlast, htime⟩ :=
    executeFusionSwap_leaves w venue chain st p hash hsub (Nat.find hex)
      (fun k hk => Nat.find_min hex hk) (Nat.find_spec hex) (k0 + 1) (by omega)
  have hwin := clockAt_window venue.getOrderStatus st (Nat.find hex)
    (fun k hk => Nat.find_min hex hk)
  have hge := clockAt_ge venue.getOrderStatus st (Nat.find hex)
  have hbound : elapsedAt venue.getOrderStatus st (Nat.find hex) ≤
      300000 + 2000 + (venue.getOrderStatus (Nat.find hex)).took +
        failedTime venue.getOrderStatus (Nat.find hex) := by
    unfold elapsedAt
    omega
  have h1000 : ((1000 : ℚ)) ≠ 0 := by norm_num
  have hcast : r.executionTime * 1000 ≤
      300000 + 2000 + ((venue.getOrderStatus (Nat.find hex)).took : ℚ) +
        (failedTime venue.getOrderStatus (Nat.find hex) : ℚ) := by
    rw [htime, div_mul_cancel₀ _ h1000]
    exact_mod_cast hbound
  refine ⟨tr, r, hrun, hnever _ _ hlast, by omega, by omega, ?_, ?_⟩
  · rw [hpolls, Nat.add_sub_cancel]
    exact hcast
  · intro hall
    rw [hpolls] at hall
    rw [hpolls, Nat.add_sub_cancel]
    constructor
    · by_contra hgt
      have h150 : 150 < Nat.find hex := by omega
      obtain ⟨s, hs⟩ := hall 150 (by omega)
      exact Nat.find_min hex h150 (hlater 150 s (le_refl _) hs)
    · have hzero := failedTime_eq_zero venue.getOrderStatus (Nat.find hex)
        (fun k hk => hall k (by omega))
      rw [hzero] at hcast
      simpa using hcast

/-- C2, witness of the amended claim: the venue whose 150th poll fails. -/
theorem monitor_times_out_witness :
    ∃ tr r, executeFusionSwap "0xwallet" (venueOf lateFailure) sampleChain 0 (150 + 1)
        sampleParams = some ⟨tr, .ok r⟩ ∧
      ¬ isTerminal r.finalStatus ∧ 0 < pollsMade tr ∧ pollsMade tr ≤ 150 + 1 ∧
      r.executionTime * 1000 ≤
        300000 + 2000 + (((venueOf lateFailure).getOrderStatus (pollsMade tr - 1)).took : ℚ) +
          (failedTime (venueOf lateFailure).getOrderStatus (pollsMade tr - 1) : ℚ) ∧
      ((∀ k < pollsMade tr, ∃ s, ((venueOf lateFailure).getOrderStatus k).response = .ok s) →
        pollsMade tr ≤ 151 ∧
        r.executionTime * 1000 ≤
          300000 + 2000 +
            (((venueOf lateFailure).getOrderStatus (pollsMade tr - 1)).took : ℚ)) :=
  monitor_times_out "0xwallet" (venueOf lateFailure) sampleChain 0 sampleParams "0xorder"
    150 OrderStatus.Pending (by decide)
    (by
      intro k s hk
      simp only [venueOf, lateFailure] at hk
      split_ifs at hk
      simp only [Settled.ok.injEq] at hk
      rw [← hk]
      decide)
    (le_refl _) (by decide)

/-- C3, counterexample.  The venue always answers `Pending`: the loop leaves
by the timeout test after 302 s, and the result carries `finalStatus =
"pending"`, the very status the venue reported at the last poll, not a value
of its own for the timeout. -/
theorem timeout_outcome_counterexample :
    ∃ tr r, executeFusionSwap "0xwallet" (venueOf alwaysPending) sampleChain 0 151 sampleParams
        = some ⟨tr, .ok r⟩ ∧
      r.executionTime = 302 ∧ ¬ isTerminal r.finalStatus ∧
      r.finalStatus = OrderStatus.Pending ∧
      (alwaysPending 150).response = .ok r.finalStatus := by
  refine ⟨_, _, rfl, ?_, ?_, ?_, ?_⟩
  · show (((302000 - 0 : Nat) : ℚ) / 1000) = 302
    norm_num
  · show ¬ isTerminal "pending"
    decide
  · rfl
  · rfl

/-- C3, amended.  When the loop leaves because the 300000 ms were exceeded
(the status of the last poll is none of `Filled`, `Expired`, `Cancelled`),
the result has no value of its own for the timeout: `finalStatus` is the
status the venue reported at the last poll, and `executionTime` is above
300 s. -/
theorem timeout_returns_venue_status (w : String) (venue : Venue) (chain : Chain)
    (st fuel : Nat) (p : SwapParams) (tr : List Event) (r : SwapResult)
    (hrun : executeFusionSwap w venue chain st fuel p = some ⟨tr, .ok r⟩)
    (htimeout : ¬ isTerminal r.finalStatus) :
    (venue.getOrderStatus (pollsMade tr - 1)).response = .ok r.finalStatus ∧
      300 < r.executionTime := by
  obtain ⟨n, h1, _, ⟨s, hs, hleave⟩, h4, h5, _, _⟩ :=
    executeFusionSwap_returned w venue chain st fuel p tr r hrun
  rw [h1, Nat.add_sub_cancel]
  refine ⟨h4, ?_⟩
  have hs2 : s = r.finalStatus := by
    rw [hs] at h4
    exact Settled.ok.inj h4
  rw [hs2] at hleave
  have hlate : 300000 < elapsedAt venue.getOrderStatus st n := by
    rcases hleave with h | h
    · exact absurd h htimeout
    · exact h
  rw [h5, lt_div_iff₀ (by norm_num)]
  exact_mod_cast hlate

/-- C3, witness of the amended claim: the venue that always answers
`Pending`. -/
theorem timeout_returns_venue_status_witness :
    ∃ tr r, executeFusionSwap "0xwallet" (venueOf alwaysPending) sampleChain 0 151 sampleParams
        = some ⟨tr, .ok r⟩ ∧ ¬ isTerminal r.finalStatus ∧
      ((venueOf alwaysPending).getOrderStatus (pollsMade tr - 1)).response
        = .ok r.finalStatus ∧ 300 < r.executionTime :=
  ⟨_, _, rfl, by decide,
    timeout_returns_venue_status "0xwallet" (venueOf alwaysPending) sampleChain 0 151
      sampleParams _ _ rfl (by decide)⟩

/-- C4.  In the trace of every finished run of `executeFusionSwap` the
statuses reported by the `Order status:` line are the transitions of the
statuses the successful polls returned: a status is reported exactly when it
differs from the status observed before it, the first being compared with
the empty string. -/
theorem status_reported_on_transition (w : String) (venue : Venue) (chain : Chain)
    (st fuel : Nat) (p : SwapParams) (tr : List Event)
    (hrun : (executeFusionSwap w venue chain st fuel p).map Run.trace = some tr) :
    reports tr = transitions "" (observed venue.getOrderStatus (pollsMade tr)) := by
  cases hex : executeFusionSwap w venue chain st fuel p with
  | none => simp [hex] at hrun
  | some run =>
    simp only [hex, Option.map_some', Option.some.injEq] at hrun
    rw [← hrun]
    exact executeFusionSwap_reports w venue chain st fuel p run hex

/-- C4, witness: the polls `Pending`, `Pending`, `Filled` give exactly two
reports, `Pending` and `Filled`. -/
theorem status_reported_on_transition_witness :
    (executeFusionSwap "0xwallet" (venueOf pendingPendingFilled) sampleChain 0 3
        sampleParams).map Run.trace = some pendingPendingFilledTrace ∧
    observed (venueOf pendingPendingFilled).getOrderStatus 3
      = [OrderStatus.Pending, OrderStatus.Pending, OrderStatus.Filled] ∧
    reports pendingPendingFilledTrace = [OrderStatus.Pending, OrderStatus.Filled] ∧
    reports pendingPendingFilledTrace
      = transitions ""
          (observed (venueOf pendingPendingFilled).getOrderStatus
            (pollsMade pendingPendingFilledTrace)) :=
  ⟨by decide, by decide, by decide,
    status_reported_on_transition "0xwallet" (venueOf pendingPendingFilled) sampleChain 0 3
      sampleParams pendingPendingFilledTrace (by decide)⟩

/-- C5.  Every run of `executeFusionSwap` that returns has polled at least
once, and `finalStatus` is the status the venue returned at the last poll
made, the one at which the loop left. -/
theorem finalStatus_is_last_poll (w : String) (venue : Venue) (chain : Chain)
    (st fuel : Nat) (p : SwapParams) (tr : List Event) (r : SwapResult)
    (hrun : executeFusionSwap w venue chain st fuel p = some ⟨tr, .ok r⟩) :
    0 < pollsMade tr ∧
      (venue.getOrderStatus (pollsMade tr - 1)).response = .ok r.finalStatus := by
  obtain ⟨n, h1, _, _, h4, _, _, _⟩ :=
    executeFusionSwap_returned w venue chain st fuel p tr r hrun
  rw [h1, Nat.add_sub_cancel]
  exact ⟨Nat.succ_pos n, h4⟩

/-- C5, witness: the status is `Pending` during the whole window; it is
reported once and is the `finalStatus`. -/
theorem finalStatus_is_last_poll_witness :
    ∃ tr r, executeFusionSwap "0xwallet" (venueOf alwaysPending) sampleChain 0 151 sampleParams
        = some ⟨tr, .ok r⟩ ∧ reports tr = [OrderStatus.Pending] ∧
      r.finalStatus = OrderStatus.Pending ∧ 0 < pollsMade tr ∧
      ((venueOf alwaysPending).getOrderStatus (pollsMade tr - 1)).response
        = .ok r.finalStatus :=
  ⟨_, _, rfl, by decide, rfl,
    finalStatus_is_last_poll "0xwallet" (venueOf alwaysPending) sampleChain 0 151 sampleParams
      _ _ rfl⟩

/-- C6.  A failed status poll is not propagated: the loop goes on from the
state reached after the 2000 ms sleep, the failed call and a further
5000 ms sleep (more than the 2000 ms between polls), and its next pass polls
again.  So when the run reaches the monitor, poll `j` fails and a later poll
`n` returns a terminal status `t`, no earlier poll having ended the monitor,
`executeFusionSwap` returns with `finalStatus = t` after `n + 1` polls
instead of throwing. -/
theorem failed_poll_is_retried (w : String) (venue : Venue) (chain : Chain) (st : Nat)
    (p : SwapParams) (hash : String) (j n : Nat) (e t : String)
    (hsub : (submitPhase w venue chain p).result = .ok hash)
    (hjn : j < n)
    (hfail : (venue.getOrderStatus j).response = .threw e)
    (hterm : (venue.getOrderStatus n).response = .ok t) (ht : isTerminal t)
    (hbefore : ∀ k < n, ¬ leavesAt venue.getOrderStatus st k) :
    (∀ (fuel : Nat) (m : Monitor), m.polls = j →
      monitorLoop hash venue.getOrderStatus st (fuel + 1) m =
        monitorLoop hash venue.getOrderStatus st fuel
          { now := m.now + 2000 + (venue.getOrderStatus j).took + 5000,
            lastStatus := m.lastStatus, polls := j + 1,
            trace := m.trace ++
              [Event.sleep 2000, Event.getOrderStatus hash, Event.sleep 5000] }) ∧
    ∃ tr r, executeFusionSwap w venue chain st (n + 1) p = some ⟨tr, .ok r⟩ ∧
      r.finalStatus = t ∧ pollsMade tr = n + 1 := by
  constructor
  · intro fuel m hm
    subst hm
    rw [monitorLoop_succ, monitorIter_threw hash st _ m e hfail]
    simp
  · obtain ⟨tr, r, hrun, hpolls, _, hlast, _⟩ :=
      executeFusionSwap_leaves w venue chain st p hash hsub n hbefore
        ⟨t, hterm, Or.inl ht⟩ (n + 1) (Nat.lt_succ_self n)
    rw [hterm] at hlast
    exact ⟨tr, r, hrun, (Settled.ok.inj hlast).symm, hpolls⟩

/-- C6, witness: the polls answer `Pending`, fail once, then answer
`Filled`. -/
theorem failed_poll_is_retried_witness :
    (∀ (fuel : Nat) (m : Monitor), m.polls = 1 →
      monitorLoop "0xorder" (venueOf failThenFilled).getOrderStatus 0 (fuel + 1) m =
        monitorLoop "0xorder" (venueOf failThenFilled).getOrderStatus 0 fuel
          { now := m.now + 2000 + ((venueOf failThenFilled).getOrderStatus 1).took + 5000,
            lastStatus := m.lastStatus, polls := 1 + 1,
            trace := m.trace ++
              [Event.sleep 2000, Event.getOrderStatus "0xorder", Event.sleep 5000] }) ∧
    ∃ tr r, executeFusionSwap "0xwallet" (venueOf failThenFilled) sampleChain 0 (2 + 1)
        sampleParams = some ⟨tr, .ok r⟩ ∧
      r.finalStatus = OrderStatus.Filled ∧ pollsMade tr = 2 + 1 :=
  failed_poll_is_retried "0xwallet" (venueOf failThenFilled) sampleChain 0 sampleParams
    "0xorder" 1 2 "network error" OrderStatus.Filled (by decide) (by decide) (by decide)
    (by decide) (by decide) (by
      intro k hk
      have hk2 : k = 0 ∨ k = 1 := by omega
      rcases hk2 with rfl | rfl
      · rintro ⟨s, hs, hl⟩
        have hs2 : s = OrderStatus.Pending := by
          simpa [venueOf, failThenFilled] using hs.symm
        subst hs2
        rcases hl with hl | hl
        · exact absurd hl (by decide)
        · exact absurd hl (by decide)
      · rintro ⟨s, hs, _⟩
        simp [venueOf, failThenFilled] at hs)

/-- C7.  In a run that reaches the monitor: (1) at a successful poll `k`
whose status is `Filled`, `Expired` or `Cancelled`, no earlier poll having
ended the monitor, `executeFusionSwap` returns having made exactly `k + 1`
polls; (2) in every finished run no poll follows a successful poll with a
terminal status, and a poll that returned another status within 300000 ms of
the start is followed by another poll; (3) at such a poll the loop does not
leave: after `k + 1` passes the run has not returned. -/
theorem monitor_stops_at_terminal (w : String) (venue : Venue) (chain : Chain) (st : Nat)
    (p : SwapParams) (hash : String)
    (hsub : (submitPhase w venue chain p).result = .ok hash) :
    (∀ k s, (venue.getOrderStatus k).response = .ok s → isTerminal s →
      (∀ j < k, ¬ leavesAt venue.getOrderStatus st j) →
      ∀ fuel, k < fuel →
        ∃ tr r, executeFusionSwap w venue chain st fuel p = some ⟨tr, .ok r⟩ ∧
          pollsMade tr = k + 1 ∧ r.finalStatus = s) ∧
    (∀ fuel run, executeFusionSwap w venue chain st fuel p = some run →
      (∀ k s, (venue.getOrderStatus k).response = .ok s → isTerminal s →
        pollsMade run.trace ≤ k + 1) ∧
      (∀ k s, k < pollsMade run.trace → (venue.getOrderStatus k).response = .ok s →
        ¬ isTerminal s → elapsedAt venue.getOrderStatus st k ≤ 300000 →
        k + 2 ≤ pollsMade run.trace)) ∧
    (∀ k s, (venue.getOrderStatus k).response = .ok s → ¬ isTerminal s →
      elapsedAt venue.getOrderStatus st k ≤ 300000 →
      (∀ j < k, ¬ leavesAt venue.getOrderStatus st j) →
      executeFusionSwap w venue chain st (k + 1) p = none) := by
  refine ⟨?_, ?_, ?_⟩
  · intro k s hs hterm hbefore fuel hfuel
    obtain ⟨tr, r, hrun, hpolls, _, hlast, _⟩ :=
      executeFusionSwap_leaves w venue chain st p hash hsub k hbefore
        ⟨s, hs, Or.inl hterm⟩ fuel hfuel
    rw [hs] at hlast
    exact ⟨tr, r, hrun, hpolls, (Settled.ok.inj hlast).symm⟩
  · rintro fuel ⟨tr, res⟩ hrun
    cases res with
    | threw e1 =>
      exfalso
      unfold executeFusionSwap at hrun
      simp only [hsub] at hrun
      cases hloop : monitorLoop hash venue.getOrderStatus st fuel
          { now := st, lastStatus := "", polls := 0,
            trace := (submitPhase w venue chain p).trace } with
      | none => simp [hloop] at hrun
      | some m => simp [hloop] at hrun
    | ok r =>
      obtain ⟨n, h1, h2, h3, _, _, _, _⟩ :=
        executeFusionSwap_returned w venue chain st fuel p tr r hrun
      constructor
      · intro k s hs hterm
        show pollsMade tr ≤ k + 1
        rw [h1]
        by_contra hlt
        exact h2 k (by omega) ⟨s, hs, Or.inl hterm⟩
      · intro k s hk hs hnt hwin
        change k < pollsMade tr at hk
        show k + 2 ≤ pollsMade tr
        rw [h1] at hk ⊢
        have hne : k ≠ n := by
          rintro rfl
          obtain ⟨s1, hs1, hl⟩ := h3
          rw [hs] at hs1
          have : s = s1 := Settled.ok.inj hs1
          subst this
          rcases hl with hl | hl
          · exact hnt hl
          · omega
        omega
  · intro k s hs hnt hwin hbefore
    apply executeFusionSwap_running w venue chain st p hash hsub (k + 1)
    intro j hj
    rcases Nat.lt_succ_iff_lt_or_eq.mp hj with hlt | rfl
    · exact hbefore j hlt
    · rintro ⟨s1, hs1, hl⟩
      rw [hs] at hs1
      have : s = s1 := Settled.ok.inj hs1
      subst this
      rcases hl with hl | hl
      · exact hnt hl
      · omega

/-- C7, witness: the polls answer `Pending`, `Pending`, `Filled`; the run
stops at the third poll and no fourth is made, whatever the fuel left. -/
theorem monitor_stops_at_terminal_witness :
    ∃ tr r, executeFusionSwap "0xwallet" (venueOf pendingPendingFilled) sampleChain 0 10
        sampleParams = some ⟨tr, .ok r⟩ ∧
      pollsMade tr = 2 + 1 ∧ r.finalStatus = OrderStatus.Filled :=
  (monitor_stops_at_terminal "0xwallet" (venueOf pendingPendingFilled) sampleChain 0
    sampleParams "0xorder" (by decide)).1 2 OrderStatus.Filled (by decide) (by decide)
    (by
      intro k hk
      have hk2 : k = 0 ∨ k = 1 := by omega
      rcases hk2 with rfl | rfl <;>
      · rintro ⟨s, hs, hl⟩
        have hs2 : s = OrderStatus.Pending := by
          simpa [venueOf, pendingPendingFilled] using hs.symm
        subst hs2
        rcases hl with hl | hl
        · exact absurd hl (by decide)
        · exact absurd hl (by decide))
    10 (by decide)

end Fusion

/-! ## The loop of fusion_plus.js -/

namespace FusionPlus

/-- C8, counterexample.  The venue answers every poll without error, reports
no ready fill and always the same status: with `Pending` (no terminal status
ever) the loop of `main` has not left after any number of passes, since
`main` has no timeout; and it has not left with `Cancelled` either, which the
loop does not test for. -/
theorem cross_chain_monitor_never_ends :
    (∀ fuel, monitorLoop "0xhash" sampleSecrets (neverFinished OrderStatus.Pending) fuel 0 []
      = none) ∧
    (∀ fuel, monitorLoop "0xhash" sampleSecrets (neverFinished OrderStatus.Cancelled) fuel 0 []
      = none) := by
  constructor
  · intro fuel
    apply mainLoop_running _ _ _ (neverFinished_succeeds _)
    rintro j _ _ ⟨s, hs, hfin⟩
    have : s = OrderStatus.Pending := (Settled.ok.inj hs).symm
    subst this
    exact absurd hfin (by decide)
  · intro fuel
    apply mainLoop_running _ _ _ (neverFinished_succeeds _)
    rintro j _ _ ⟨s, hs, hfin⟩
    have : s = OrderStatus.Cancelled := (Settled.ok.inj hs).symm
    subst this
    exact absurd hfin (by decide)

/-- C8, amended.  While the venue answers without error, the loop of `main`
ends exactly when the venue reports `Executed`, `Expired` or `Refunded`: it
leaves by `break` in the first pass whose status is one of the three, and
when no pass has such a status it has not left after any number of passes.
`Cancelled` does not end it and there is no local timeout. -/
theorem cross_chain_monitor_ends (hash : String) (secrets : List String)
    (venue : Nat → Tick) (hok : ∀ k, (venue k).succeeds) :
    (∀ n, (venue n).finished → (∀ k < n, ¬ (venue k).finished) →
      ∀ fuel, n < fuel →
        ∃ tr, monitorLoop hash secrets venue fuel 0 [] = some ⟨tr, .ok (n + 1)⟩) ∧
    ((∀ n, ¬ (venue n).finished) →
      ∀ fuel, monitorLoop hash secrets venue fuel 0 [] = none) := by
  constructor
  · intro n hfin hbefore fuel hfuel
    have := mainLoop_leaves hash secrets venue hok n 0 []
      (by intro j _ hj; exact hbefore j (by omega)) (by simpa using hfin) fuel hfuel
    simpa using this
  · intro hnever fuel
    exact mainLoop_running hash secrets venue hok fuel 0 [] (fun j _ _ => hnever j)

/-- C8, witness of the amended claim: the venue reports `Pending`, then
`Executed`; the loop leaves in the second pass. -/
theorem cross_chain_monitor_ends_witness :
    ∃ tr, monitorLoop "0xhash" sampleSecrets readyTwice 2 0 [] = some ⟨tr, .ok (1 + 1)⟩ :=
  (cross_chain_monitor_ends "0xhash" sampleSecrets readyTwice
    (fun k => ⟨⟨[0], rfl, fun _ _ => rfl⟩, by
      by_cases hk : k = 0
      · exact ⟨OrderStatus.Pending, by simp [readyTwice, hk]⟩
      · exact ⟨OrderStatus.Executed, by simp [readyTwice, hk]⟩⟩)).1 1
    ⟨OrderStatus.Executed, rfl, by decide⟩
    (by
      intro k hk
      have hk0 : k = 0 := by omega
      subst hk0
      rintro ⟨s, hs, hfin⟩
      have : s = OrderStatus.Pending := (Settled.ok.inj hs).symm
      subst this
      exact absurd hfin (by decide))
    2 (by decide)

end FusionPlus

/-! ## The allowance guard, both copies -/

/-- C9.  Let the allowance read for (wallet, spender) be `currentAllowance`.
When `currentAllowance >= amount`, both copies of `checkAndSetAllowance` make
no further call and return `false`.  When `currentAllowance < amount` and the
gas price, the approval and its confirmation succeed, both send one `approve`
transaction and return `true`.  Conversely a copy returns `true`, or sends an
`approve`, only if `currentAllowance < amount`, and returns `false` only if
`currentAllowance >= amount`. -/
theorem checkAndSetAllowance_guard (walletAddress tokenAddress spenderAddress : String)
    (amount currentAllowance : Nat) (chain : Chain)
    (hread : chain.allowance = .ok currentAllowance) :
    (amount ≤ currentAllowance →
      Fusion.checkAndSetAllowance walletAddress chain tokenAddress spenderAddress amount
          = ⟨[Event.allowance tokenAddress walletAddress spenderAddress], .ok false⟩ ∧
      FusionPlus.checkAndSetAllowance walletAddress chain tokenAddress spenderAddress amount
          = ⟨[Event.allowance tokenAddress walletAddress spenderAddress], .ok false⟩) ∧
    (currentAllowance < amount →
      (∃ gasPrice tx block, chain.getGasPrice = .ok gasPrice ∧ chain.approve = .ok tx ∧
        chain.wait = .ok block) →
      ((Fusion.checkAndSetAllowance walletAddress chain tokenAddress spenderAddress
            amount).result = .ok true ∧
        approvalsSent (Fusion.checkAndSetAllowance walletAddress chain tokenAddress
            spenderAddress amount).trace = 1) ∧
      ((FusionPlus.checkAndSetAllowance walletAddress chain tokenAddress spenderAddress
            amount).result = .ok true ∧
        approvalsSent (FusionPlus.checkAndSetAllowance walletAddress chain tokenAddress
            spenderAddress amount).trace = 1)) ∧
    (∀ run, run = Fusion.checkAndSetAllowance walletAddress chain tokenAddress
          spenderAddress amount ∨
        run = FusionPlus.checkAndSetAllowance walletAddress chain tokenAddress
          spenderAddress amount →
      (run.result = .ok true → currentAllowance < amount) ∧
      (run.result = .ok false → amount ≤ currentAllowance) ∧
      (approvalsSent run.trace ≠ 0 → currentAllowance < amount)) := by
  refine ⟨?_, ?_, ?_⟩
  · intro h
    simp [Fusion.checkAndSetAllowance, FusionPlus.checkAndSetAllowance, hread,
      Nat.not_lt.mpr h]
  · rintro h ⟨g, tx, b, hg, ha, hw⟩
    simp [Fusion.checkAndSetAllowance, FusionPlus.checkAndSetAllowance, hread, h, hg, ha, hw,
      approvalsSent]
  · rintro run (rfl | rfl)
    · by_cases h : currentAllowance < amount
      · simp only [h, true_implies, implies_true, true_and, and_true]
        cases hg : chain.getGasPrice <;> cases ha : chain.approve <;>
          cases hw : chain.wait <;>
          simp [Fusion.checkAndSetAllowance, hread, h, hg, ha, hw]
      · simp [Fusion.checkAndSetAllowance, hread, h, approvalsSent, Nat.not_lt.mp h]
    · by_cases h : currentAllowance < amount
      · simp only [h, true_implies, implies_true, true_and, and_true]
        cases hg : chain.getGasPrice <;> cases ha : chain.approve <;>
          cases hw : chain.wait <;>
          simp [FusionPlus.checkAndSetAllowance, hread, h, hg, ha, hw]
      · simp [FusionPlus.checkAndSetAllowance, hread, h, approvalsSent, Nat.not_lt.mp h]

/-- C9, witness: nothing granted yet and 5000000 required; both copies send
one approval and return `true`. -/
theorem checkAndSetAllowance_guard_witness :
    ((Fusion.checkAndSetAllowance "0xwallet" sampleChain "0xtoken" "0xrouter"
          5000000).result = .ok true ∧
      approvalsSent (Fusion.checkAndSetAllowance "0xwallet" sampleChain "0xtoken" "0xrouter"
          5000000).trace = 1) ∧
    ((FusionPlus.checkAndSetAllowance "0xwallet" sampleChain "0xtoken" "0xrouter"
          5000000).result = .ok true ∧
      approvalsSent (FusionPlus.checkAndSetAllowance "0xwallet" sampleChain "0xtoken"
          "0xrouter" 5000000).trace = 1) :=
  (checkAndSetAllowance_guard "0xwallet" "0xtoken" "0xrouter" 5000000 0 sampleChain rfl).2.1
    (by decide) ⟨1000000000, "0xapprove", 1, rfl, rfl, rfl⟩

/-- C10.  In both copies of `checkAndSetAllowance`, whatever the calls
answer: at most one `approve` call is made; every `approve` call is on the
given token, to the given spender, for `2^256 - 1`, whatever the required
amount; and when the function returns `true` its calls were, in this order,
the allowance read, the gas price, one `approve` and one `wait(1)`. -/
theorem checkAndSetAllowance_approval (walletAddress tokenAddress spenderAddress : String)
    (amount : Nat) (chain : Chain) :
    ∀ run, run = Fusion.checkAndSetAllowance walletAddress chain tokenAddress
          spenderAddress amount ∨
        run = FusionPlus.checkAndSetAllowance walletAddress chain tokenAddress
          spenderAddress amount →
      approvalsSent run.trace ≤ 1 ∧
      (∀ token spender value gasLimit gasPrice,
        Event.approve token spender value gasLimit gasPrice ∈ run.trace →
          token = tokenAddress ∧ spender = spenderAddress ∧ value = 2 ^ 256 - 1) ∧
      (run.result = .ok true →
        ∃ gasPrice, run.trace =
          [Event.allowance tokenAddress walletAddress spenderAddress, Event.getGasPrice,
           Event.approve tokenAddress spenderAddress (2 ^ 256 - 1) 100000 gasPrice,
           Event.wait 1]) := by
  rintro run (rfl | rfl)
  · cases hr : chain.allowance <;> cases hg : chain.getGasPrice <;>
      cases ha : chain.approve <;> cases hw : chain.wait <;>
      simp only [Fusion.checkAndSetAllowance, hr, hg, ha, hw] <;>
      (try split_ifs) <;> simp [approvalsSent, MaxUint256] <;> (intros; simp_all)
  · cases hr : chain.allowance <;> cases hg : chain.getGasPrice <;>
      cases ha : chain.approve <;> cases hw : chain.wait <;>
      simp only [FusionPlus.checkAndSetAllowance, hr, hg, ha, hw] <;>
      (try split_ifs) <;> simp [approvalsSent, MaxUint256] <;> (intros; simp_all)

/-- C10, witness: nothing granted yet and 5000000 required; the copy of
fusion.js reads the allowance and the gas price, approves `2^256 - 1` to the
router and waits for one confirmation. -/
theorem checkAndSetAllowance_approval_witness :
    (Fusion.checkAndSetAllowance "0xwallet" sampleChain "0xtoken" "0xrouter" 5000000).result
      = .ok true ∧
    ∃ gasPrice,
      (Fusion.checkAndSetAllowance "0xwallet" sampleChain "0xtoken" "0xrouter" 5000000).trace =
        [Event.allowance "0xtoken" "0xwallet" "0xrouter", Event.getGasPrice,
         Event.approve "0xtoken" "0xrouter" (2 ^ 256 - 1) 100000 gasPrice, Event.wait 1] :=
  ⟨by decide,
    (checkAndSetAllowance_approval "0xwallet" "0xtoken" "0xrouter" 5000000 sampleChain
      _ (Or.inl rfl)).2.2 (by decide)⟩

/-! ## The allowance guard against an allowance record -/

theorem check_sufficient (check : String → Chain → String → String → Nat → Run Bool)
    (hcheck : check = Fusion.checkAndSetAllowance ∨ check = FusionPlus.checkAndSetAllowance)
    (w token spender : String) (amount a : Nat) (chain : Chain)
    (hread : chain.allowance = .ok a) (hle : amount ≤ a) :
    check w chain token spender amount = ⟨[Event.allowance token w spender], .ok false⟩ := by
  rcases hcheck with rfl | rfl <;>
    simp [Fusion.checkAndSetAllowance, FusionPlus.checkAndSetAllowance, hread,
      Nat.not_lt.mpr hle]

theorem check_returned (check : String → Chain → String → String → Nat → Run Bool)
    (hcheck : check = Fusion.checkAndSetAllowance ∨ check = FusionPlus.checkAndSetAllowance)
    (w token spender : String) (amount a : Nat) (chain : Chain)
    (hread : chain.allowance = .ok a) :
    ((check w chain token spender amount).result = .ok false → amount ≤ a) ∧
    ((check w chain token spender amount).result = .ok true →
      ∃ gasPrice, (check w chain token spender amount).trace =
        [Event.allowance token w spender, Event.getGasPrice,
         Event.approve token spender MaxUint256 100000 gasPrice, Event.wait 1]) := by
  rcases hcheck with rfl | rfl <;>
    cases hg : chain.getGasPrice <;> cases ha : chain.approve <;> cases hw : chain.wait <;>
    simp only [Fusion.checkAndSetAllowance, FusionPlus.checkAndSetAllowance, hread, hg, ha,
      hw] <;>
    split_ifs <;> simp <;> omega

/-- C11.  Take the allowance record as explicit state, changed only by a
confirmed `approve`.  For either copy of `checkAndSetAllowance`, every token,
spender, starting record and amount of at most `2^256 - 1`: once a first call
has returned, a second call with the same inputs makes the allowance read
and nothing else, so it sends no transaction, returns `false` and leaves the
record as it is, whatever the other calls of the chain would answer. -/
theorem second_call_is_a_noop
    (check : String → Chain → String → String → Nat → Run Bool)
    (hcheck : check = Fusion.checkAndSetAllowance ∨ check = FusionPlus.checkAndSetAllowance)
    (record : AllowanceRecord) (net1 net2 : Chain) (w token spender : String) (amount : Nat)
    (hamount : amount ≤ 2 ^ 256 - 1) (b : Bool)
    (hfirst : (onRecord check record net1 w token spender amount).1.result = .ok b) :
    (onRecord check (onRecord check record net1 w token spender amount).2 net2 w token spender
        amount).1 = ⟨[Event.allowance token w spender], .ok false⟩ ∧
    approvalsSent (onRecord check (onRecord check record net1 w token spender amount).2 net2 w
        token spender amount).1.trace = 0 ∧
    (onRecord check (onRecord check record net1 w token spender amount).2 net2 w token spender
        amount).2 = (onRecord check record net1 w token spender amount).2 := by
  have hrecord : amount ≤
      (onRecord check record net1 w token spender amount).2.amount token w spender := by
    have hret := check_returned check hcheck w token spender amount
      (record.amount token w spender) (record.chain net1 token w spender) rfl
    simp only [onRecord] at hfirst ⊢
    cases b with
    | false =>
      rw [hfirst]
      simpa using hret.1 hfirst
    | true =>
      obtain ⟨g, hg⟩ := hret.2 hfirst
      rw [hfirst, hg]
      simp [AllowanceRecord.confirm, AllowanceRecord.approve, MaxUint256]
      exact hamount
  have hsecond := check_sufficient check hcheck w token spender amount _
    ((onRecord check record net1 w token spender amount).2.chain net2 token w spender)
    rfl hrecord
  have hrun : (onRecord check (onRecord check record net1 w token spender amount).2 net2 w
      token spender amount).1 = ⟨[Event.allowance token w spender], .ok false⟩ := by
    rw [onRecord]
    exact hsecond
  refine ⟨hrun, ?_, ?_⟩
  · rw [hrun]; simp [approvalsSent]
  · have h2 : (onRecord check (onRecord check record net1 w token spender amount).2 net2 w
        token spender amount).2 =
        if (onRecord check (onRecord check record net1 w token spender amount).2 net2 w
          token spender amount).1.result = .ok true
        then (onRecord check record net1 w token spender amount).2.confirm w
          (onRecord check (onRecord check record net1 w token spender amount).2 net2 w
            token spender amount).1.trace
        else (onRecord check record net1 w token spender amount).2 := by
      rfl
    rw [h2, hrun]
    simp

/-- C11, witness: nothing granted yet and 5000000 required.  The first call
of the copy of fusion.js approves and returns `true`; the second only reads
the allowance and returns `false`. -/
theorem second_call_is_a_noop_witness :
    (onRecord Fusion.checkAndSetAllowance nothingGranted sampleChain "0xwallet" "0xtoken"
        "0xrouter" 5000000).1.result = .ok true ∧
    (onRecord Fusion.checkAndSetAllowance
        (onRecord Fusion.checkAndSetAllowance nothingGranted sampleChain "0xwallet" "0xtoken"
          "0xrouter" 5000000).2
        sampleChain "0xwallet" "0xtoken" "0xrouter" 5000000).1 =
      ⟨[Event.allowance "0xtoken" "0xwallet" "0xrouter"], .ok false⟩ :=
  ⟨by decide,
    (second_call_is_a_noop Fusion.checkAndSetAllowance (Or.inl rfl) nothingGranted sampleChain
      sampleChain "0xwallet" "0xtoken" "0xrouter" 5000000 (by norm_num) true (by decide)).1⟩

/-! ## The allowance step of `executeFusionSwap` -/

namespace Fusion

theorem allowanceCalls_append (a b : List Event) :
    allowanceCalls (a ++ b) = allowanceCalls a ++ allowanceCalls b := by
  simp [allowanceCalls, List.filter_append]

theorem checkAndSetAllowance_calls (w : String) (chain : Chain) (token spender : String)
    (amount : Nat) :
    allowanceCalls (checkAndSetAllowance w chain token spender amount).trace =
        (checkAndSetAllowance w chain token spender amount).trace ∧
      (checkAndSetAllowance w chain token spender amount).trace.count
        (Event.allowance token w spender) = 1 ∧
      ordersPlaced (checkAndSetAllowance w chain token spender amount).trace = 0 := by
  cases hr : chain.allowance <;> cases hg : chain.getGasPrice <;>
    cases ha : chain.approve <;> cases hw : chain.wait <;>
    simp only [checkAndSetAllowance, hr, hg, ha, hw] <;>
    (try split_ifs) <;> simp [allowanceCalls, ordersPlaced]

theorem monitorIter_allowanceCalls (h : String) (st : Nat) (p : Poll) (m : Monitor) :
    allowanceCalls (monitorIter h st p m).1.trace = allowanceCalls m.trace := by
  cases hp : p.response with
  | ok s =>
    rw [monitorIter_ok_state h st p m s hp]
    by_cases hs : s = m.lastStatus <;> simp [allowanceCalls, hs, List.filter_append]
  | threw e => simp [monitorIter_threw h st p m e hp, allowanceCalls, List.filter_append]

theorem monitorLoop_allowanceCalls (h : String) (g : Nat → Poll) (st fuel : Nat)
    (m m1 : Monitor) (hloop : monitorLoop h g st fuel m = some m1) :
    allowanceCalls m1.trace = allowanceCalls m.trace := by
  obtain ⟨m0, h0, hit⟩ := monitorLoop_exit h g st
    (fun x => allowanceCalls x.trace = allowanceCalls m.trace)
    (fun x hx _ => by
      show allowanceCalls _ = _
      rw [monitorIter_allowanceCalls]; exact hx) fuel m m1 rfl hloop
  have := monitorIter_allowanceCalls h st (g m0.polls) m0
  rw [hit] at this
  rw [this, h0]

/-- The trace of a finished run continues that of `submitPhase` with events
of the monitor only. -/
theorem executeFusionSwap_allowanceCalls (w : String) (venue : Venue) (chain : Chain)
    (st fuel : Nat) (p : SwapParams) (run : Run SwapResult)
    (hrun : executeFusionSwap w venue chain st fuel p = some run) :
    allowanceCalls run.trace = allowanceCalls (submitPhase w venue chain p).trace := by
  unfold executeFusionSwap at hrun
  cases hsub : (submitPhase w venue chain p).result with
  | threw e =>
    simp only [hsub, Option.some.injEq] at hrun
    rw [← hrun]
  | ok hash =>
    simp only [hsub] at hrun
    cases hloop : monitorLoop hash venue.getOrderStatus st fuel
        { now := st, lastStatus := "", polls := 0,
          trace := (submitPhase w venue chain p).trace } with
    | none => simp [hloop] at hrun
    | some m =>
      simp only [hloop, Option.some.injEq] at hrun
      rw [← hrun]
      exact monitorLoop_allowanceCalls hash venue.getOrderStatus st fuel _ m hloop

theorem submitPhase_native (w : String) (venue : Venue) (chain : Chain) (p : SwapParams)
    (hnative : toLowerCase p.fromTokenAddress = nativeToken) :
    allowanceCalls (submitPhase w venue chain p).trace = [] := by
  simp only [submitPhase, hnative]
  cases venue.getQuote <;> cases venue.createOrder <;> cases venue.submitOrder <;>
    simp [allowanceCalls]

theorem submitPhase_token (w : String) (venue : Venue) (chain : Chain) (p : SwapParams)
    (hnative : toLowerCase p.fromTokenAddress ≠ nativeToken) (q : String)
    (hq : venue.getQuote = .ok q) :
    allowanceCalls (submitPhase w venue chain p).trace =
      (checkAndSetAllowance w chain p.fromTokenAddress baseRouterAddress p.amount).trace := by
  obtain ⟨hc, _, _⟩ :=
    checkAndSetAllowance_calls w chain p.fromTokenAddress baseRouterAddress p.amount
  simp only [submitPhase, hq, hnative]
  generalize checkAndSetAllowance w chain p.fromTokenAddress baseRouterAddress p.amount = r
    at hc ⊢
  obtain ⟨tr, res⟩ := r
  have hc1 : allowanceCalls tr = tr := hc
  cases res <;> cases venue.createOrder <;> cases venue.submitOrder <;>
    simp [allowanceCalls, List.filter_append] at hc1 ⊢ <;> exact hc1

/-- C12.  In `executeFusionSwap`, when `fromTokenAddress` in lower case is
the native-asset address `0xeeee...eeee`, the steps up to the submission
make no allowance read, no gas price read, no `approve` and no wait, and
neither does any finished run.  For every other `fromTokenAddress`, once the
quote is obtained, the calls of the allowance guard in the run are exactly
those of one `checkAndSetAllowance` on `fromTokenAddress` with the router
address as spender and `swapParams.amount` as the amount: the allowance of
the router is read once. -/
theorem allowance_guard_skipped_for_native (w : String) (venue : Venue) (chain : Chain)
    (p : SwapParams) :
    (toLowerCase p.fromTokenAddress = nativeToken →
      allowanceCalls (submitPhase w venue chain p).trace = [] ∧
      ∀ st fuel run, executeFusionSwap w venue chain st fuel p = some run →
        allowanceCalls run.trace = []) ∧
    (toLowerCase p.fromTokenAddress ≠ nativeToken → ∀ q, venue.getQuote = .ok q →
      allowanceCalls (submitPhase w venue chain p).trace =
        (checkAndSetAllowance w chain p.fromTokenAddress baseRouterAddress p.amount).trace ∧
      (∀ st fuel run, executeFusionSwap w venue chain st fuel p = some run →
        allowanceCalls run.trace =
          (checkAndSetAllowance w chain p.fromTokenAddress baseRouterAddress p.amount).trace ∧
        run.trace.count (Event.allowance p.fromTokenAddress w baseRouterAddress) = 1)) := by
  constructor
  · intro hnative
    refine ⟨submitPhase_native w venue chain p hnative, ?_⟩
    intro st fuel run hrun
    rw [executeFusionSwap_allowanceCalls w venue chain st fuel p run hrun]
    exact submitPhase_native w venue chain p hnative
  · intro hnative q hq
    have hsub := submitPhase_token w venue chain p hnative q hq
    refine ⟨hsub, ?_⟩
    intro st fuel run hrun
    have hcalls : allowanceCalls run.trace =
        (checkAndSetAllowance w chain p.fromTokenAddress baseRouterAddress p.amount).trace := by
      rw [executeFusionSwap_allowanceCalls w venue chain st fuel p run hrun]
      exact hsub
    refine ⟨hcalls, ?_⟩
    obtain ⟨_, hone, _⟩ :=
      checkAndSetAllowance_calls w chain p.fromTokenAddress baseRouterAddress p.amount
    rw [← hcalls] at hone
    rw [← hone]
    unfold allowanceCalls
    rw [List.count_filter]
    rfl

/-- C13.  `checkAndSetAllowance` of fusion.js sends at most one `approve`
and, when the allowance read, the gas price read, the approval or its
confirmation fails with `e`, stops at that call and fails with `e`: nothing
is called again.  When the guard fails with `e` inside `executeFusionSwap`,
the run is the quote, the sleep and the calls of the guard, it fails with
`e`, no order is created or submitted and no status is polled. -/
theorem allowance_failure_is_fatal (w : String) (venue : Venue) (chain : Chain)
    (p : SwapParams) (e : String) :
    (∀ token spender amount,
      approvalsSent (checkAndSetAllowance w chain token spender amount).trace ≤ 1 ∧
      (chain.allowance = .threw e →
        checkAndSetAllowance w chain token spender amount =
          ⟨[Event.allowance token w spender], .threw e⟩) ∧
      (∀ a, chain.allowance = .ok a → a < amount → chain.getGasPrice = .threw e →
        checkAndSetAllowance w chain token spender amount =
          ⟨[Event.allowance token w spender, Event.getGasPrice], .threw e⟩) ∧
      (∀ a g, chain.allowance = .ok a → a < amount → chain.getGasPrice = .ok g →
        chain.approve = .threw e →
        checkAndSetAllowance w chain token spender amount =
          ⟨[Event.allowance token w spender, Event.getGasPrice,
            Event.approve token spender MaxUint256 100000 (g * 110 / 100)], .threw e⟩) ∧
      (∀ a g tx, chain.allowance = .ok a → a < amount → chain.getGasPrice = .ok g →
        chain.approve = .ok tx → chain.wait = .threw e →
        checkAndSetAllowance w chain token spender amount =
          ⟨[Event.allowance token w spender, Event.getGasPrice,
            Event.approve token spender MaxUint256 100000 (g * 110 / 100), Event.wait 1],
           .threw e⟩)) ∧
    (toLowerCase p.fromTokenAddress ≠ nativeToken → ∀ q, venue.getQuote = .ok q →
      (checkAndSetAllowance w chain p.fromTokenAddress baseRouterAddress p.amount).result
        = .threw e →
      ∀ st fuel, ∃ tr, executeFusionSwap w venue chain st fuel p = some ⟨tr, .threw e⟩ ∧
        tr = [Event.getQuote, Event.sleep 1000] ++
          (checkAndSetAllowance w chain p.fromTokenAddress baseRouterAddress p.amount).trace ∧
        ordersPlaced tr = 0 ∧ pollsMade tr = 0) := by
  constructor
  · intro token spender amount
    refine ⟨?_, ?_, ?_, ?_, ?_⟩
    · cases hr : chain.allowance <;> cases hg : chain.getGasPrice <;>
        cases ha : chain.approve <;> cases hw : chain.wait <;>
        simp only [checkAndSetAllowance, hr, hg, ha, hw] <;>
        (try split_ifs) <;> simp [approvalsSent]
    · intro hr
      simp [checkAndSetAllowance, hr]
    · intro a hr hlt hg
      simp [checkAndSetAllowance, hr, hlt, hg]
    · intro a g hr hlt hg ha
      simp [checkAndSetAllowance, hr, hlt, hg, ha]
    · intro a g tx hr hlt hg ha hw
      simp [checkAndSetAllowance, hr, hlt, hg, ha, hw]
  · intro hnative q hq hres st fuel
    obtain ⟨_, _, hno⟩ :=
      checkAndSetAllowance_calls w chain p.fromTokenAddress baseRouterAddress p.amount
    obtain ⟨hpolls, _⟩ :=
      checkAndSetAllowance_quiet w chain p.fromTokenAddress baseRouterAddress p.amount
    have hsub : submitPhase w venue chain p =
        ⟨[Event.getQuote, Event.sleep 1000] ++
          (checkAndSetAllowance w chain p.fromTokenAddress baseRouterAddress p.amount).trace,
         .threw e⟩ := by
      simp [submitPhase, hq, hnative, hres]
    refine ⟨_, ?_, rfl, ?_, ?_⟩
    · simp [executeFusionSwap, hsub]
    · have : ordersPlaced ([Event.getQuote, Event.sleep 1000] ++
          (checkAndSetAllowance w chain p.fromTokenAddress baseRouterAddress p.amount).trace) =
          ordersPlaced [Event.getQuote, Event.sleep 1000] +
            ordersPlaced (checkAndSetAllowance w chain p.fromTokenAddress baseRouterAddress
              p.amount).trace := by
        simp [ordersPlaced, List.countP_append]
      rw [this, hno]; rfl
    · rw [pollsMade_append, hpolls]; rfl

end Fusion

/-! ## Secrets, commitment and secret release in fusion_plus.js -/

theorem hexValue_hexDigit (d : Nat) (hd : d < 16) : hexValue (hexDigit d) = some d := by
  interval_cases d <;> decide

theorem hexDigit_isDigit (d : Nat) (hd : d < 16) : hexDigit d ∈ "0123456789abcdef".data := by
  interval_cases d <;> decide

theorem fromHex_toHex : ∀ bytes : List Nat, (∀ b ∈ bytes, b < 256) →
    fromHex (toHex bytes).data = some bytes := by
  intro bytes
  induction bytes with
  | nil => intro _; rfl
  | cons b rest ih =>
    intro hsmall
    have hb : b < 256 := hsmall b (by simp)
    have hrest := ih (fun x hx => hsmall x (by simp [hx]))
    simp only [toHex, List.flatMap_cons, List.cons_append, List.nil_append] at hrest ⊢
    rw [fromHex, hexValue_hexDigit (b / 16) (by omega), hexValue_hexDigit (b % 16) (by omega),
      hrest]
    simp only [Option.some.injEq, List.cons.injEq, and_true]
    omega

theorem toHex_length (bytes : List Nat) : (toHex bytes).length = 2 * bytes.length := by
  induction bytes with
  | nil => rfl
  | cons b rest ih =>
    simp only [toHex, String.length, List.flatMap_cons, List.length_append, List.length_cons,
      List.length_nil] at ih ⊢
    omega

theorem toHex_digits (bytes : List Nat) (hsmall : ∀ b ∈ bytes, b < 256) :
    ∀ c ∈ (toHex bytes).data, c ∈ "0123456789abcdef".data := by
  intro c hc
  simp only [toHex, List.mem_flatMap, List.mem_cons, List.mem_singleton] at hc
  obtain ⟨b, hb, hcb⟩ := hc
  have := hsmall b hb
  rcases hcb with rfl | rfl | h
  · exact hexDigit_isDigit _ (by omega)
  · exact hexDigit_isDigit _ (by omega)
  · simp at h

theorem mapAll_ok {α β : Type} (f : α → Settled β) :
    ∀ (xs : List α) (ys : List β), Settled.mapAll f xs = .ok ys →
      ys.length = xs.length ∧
      ∀ i, i < xs.length → ∃ x y, xs[i]? = some x ∧ ys[i]? = some y ∧ f x = .ok y := by
  intro xs
  induction xs with
  | nil =>
    intro ys h
    simp only [Settled.mapAll, Settled.ok.injEq] at h
    subst h
    simp
  | cons x rest ih =>
    intro ys h
    rw [Settled.mapAll] at h
    cases hx : f x with
    | threw e => simp [hx] at h
    | ok y =>
      cases hrest : Settled.mapAll f rest with
      | threw e => simp [hx, hrest] at h
      | ok ys1 =>
        simp only [hx, hrest, Settled.ok.injEq] at h
        subst h
        obtain ⟨hlen, hall⟩ := ih ys1 hrest
        refine ⟨by simp [hlen], ?_⟩
        intro i hi
        cases i with
        | zero => exact ⟨x, y, by simp, by simp, hx⟩
        | succ i =>
          simp only [List.length_cons, Nat.add_lt_add_iff_right] at hi
          simpa using hall i hi

namespace FusionPlus

theorem shareSecrets_trace (hash : String) (secrets : List String)
    (submit : Nat → Settled Unit) :
    ∀ (fills : List Nat) (pos : Nat) (trace : List Event),
      ∃ k, k ≤ fills.length ∧
        (shareSecrets hash secrets submit fills pos trace).trace =
          trace ++ (fills.take k).flatMap (fillCalls hash secrets) ∧
        ((shareSecrets hash secrets submit fills pos trace).result = .ok () →
          k = fills.length) := by
  intro fills
  induction fills with
  | nil => intro pos trace; exact ⟨0, le_refl _, by simp [shareSecrets], fun _ => rfl⟩
  | cons idx rest ih =>
    intro pos trace
    rw [shareSecrets]
    cases hs : submit pos with
    | threw e =>
      refine ⟨1, by simp, ?_, ?_⟩
      · simp [fillCalls]
      · intro h; simp at h
    | ok u =>
      obtain ⟨k, hk, htr, hres⟩ := ih (pos + 1)
        (trace ++ [Event.sleep 1000, Event.submitSecret hash secrets[idx]?])
      refine ⟨k + 1, by simp [hk], ?_, ?_⟩
      · simp only [htr]
        simp [fillCalls]
      · intro h
        simp only [List.length_cons, Nat.add_right_cancel_iff]
        exact hres h

/-- What `main` has committed to when it calls `sdk.createOrder` was computed
from the quote and the random bytes only. -/
theorem main_created {Lock Leaf : Type} (w authKey : String) (venue : Venue) (chain : Chain)
    (sdk : HashLockSdk Lock Leaf) (randomBytes : Nat → Bytes32) (fuel : Nat)
    (run : MainRun Lock) (c : Commitment Lock)
    (hrun : main w authKey venue chain sdk randomBytes fuel = some run)
    (hc : run.created = some c) :
    ∃ n, venue.getQuote = .ok n ∧ c.secrets = secrets n randomBytes ∧
      hashLock sdk c.secrets = .ok c.hashLock ∧
      secretHashes sdk c.secrets = .ok c.secretHashes := by
  unfold main at hrun
  cases hq : venue.getQuote with
  | threw e =>
    simp only [hq, Option.some.injEq] at hrun
    rw [← hrun] at hc
    simp at hc
  | ok n =>
    refine ⟨n, rfl, ?_⟩
    simp only [hq] at hrun
    cases ha : (checkAndSetAllowance w chain srcTokenAddress allowanceTarget amount).result with
    | threw e =>
      simp only [ha, Option.some.injEq] at hrun
      rw [← hrun] at hc
      simp at hc
    | ok b =>
      simp only [ha] at hrun
      cases hl : hashLock sdk (secrets n randomBytes) with
      | threw e =>
        simp only [hl, Option.some.injEq] at hrun
        rw [← hrun] at hc
        simp at hc
      | ok lock =>
        simp only [hl] at hrun
        cases hh : secretHashes sdk (secrets n randomBytes) with
        | threw e =>
          simp only [hh, Option.some.injEq] at hrun
          rw [← hrun] at hc
          simp at hc
        | ok hashes =>
          simp only [hh] at hrun
          have hcreated : run.created =
              some { secrets := secrets n randomBytes, hashLock := lock,
                     secretHashes := hashes } := by
            repeat' split at hrun
            all_goals first
              | (simp only [Option.some.injEq] at hrun; rw [← hrun])
              | (simp at hrun)
          rw [hcreated] at hc
          simp only [Option.some.injEq] at hc
          subst hc
          exact ⟨rfl, hl, hh⟩

theorem monitorIter_trace (hash : String) (secrets : List String) (t : Tick)
    (trace : List Event) (fills : List Nat) (hf : t.fills = .ok fills) :
    ∃ k, k ≤ fills.length ∧
      (((monitorIter hash secrets t trace).trace =
          trace ++ [Event.sleep 1000, Event.getReadyToAcceptSecretFills hash] ++
            (fills.take k).flatMap (fillCalls hash secrets)) ∨
        (k = fills.length ∧ (monitorIter hash secrets t trace).trace =
          trace ++ [Event.sleep 1000, Event.getReadyToAcceptSecretFills hash] ++
            fills.flatMap (fillCalls hash secrets) ++
            [Event.sleep 1000, Event.getOrderStatus hash])) ∧
      (∀ b, (monitorIter hash secrets t trace).result = .ok b →
        (monitorIter hash secrets t trace).trace =
          trace ++ [Event.sleep 1000, Event.getReadyToAcceptSecretFills hash] ++
            fills.flatMap (fillCalls hash secrets) ++
            [Event.sleep 1000, Event.getOrderStatus hash]) := by
  obtain ⟨k, hk, htr, hres⟩ := shareSecrets_trace hash secrets t.submitSecret fills 0
    (trace ++ [Event.sleep 1000, Event.getReadyToAcceptSecretFills hash])
  unfold monitorIter
  simp only [hf, shareSecrets_guard]
  cases hsh : (shareSecrets hash secrets t.submitSecret fills 0
      (trace ++ [Event.sleep 1000, Event.getReadyToAcceptSecretFills hash])).result with
  | threw e =>
    refine ⟨k, hk, Or.inl htr, ?_⟩
    intro b hb
    simp at hb
  | ok u =>
    have hkeq : k = fills.length := hres hsh
    subst hkeq
    rw [List.take_length] at htr
    cases hst : t.status with
    | threw e =>
      refine ⟨fills.length, le_refl _, Or.inr ⟨rfl, ?_⟩, ?_⟩
      · simp only [htr]
      · intro b hb; simp at hb
    | ok status =>
      refine ⟨fills.length, le_refl _, Or.inr ⟨rfl, ?_⟩, ?_⟩
      · simp only
        split_ifs <;> simp only [htr]
      · intro b _
        simp only
        split_ifs <;> simp only [htr]

theorem checkAndSetAllowance_shares_nothing (w : String) (chain : Chain)
    (token spender : String) (amount : Nat) :
    secretsShared (checkAndSetAllowance w chain token spender amount).trace = [] := by
  unfold checkAndSetAllowance
  repeat' split
  all_goals simp [secretsShared]

theorem checkOrderStatus_shares_nothing (hash authKey : String) (answer : HttpOutcome) :
    secretsShared (checkOrderStatus hash authKey answer).trace = [] := by
  unfold checkOrderStatus
  repeat' split
  all_goals simp [secretsShared]

theorem main_shared {Lock Leaf : Type} (w authKey : String) (venue : Venue) (chain : Chain)
    (sdk : HashLockSdk Lock Leaf) (randomBytes : Nat → Bytes32) (fuel : Nat)
    (run : MainRun Lock) (c : Commitment Lock)
    (hrun : main w authKey venue chain sdk randomBytes fuel = some run)
    (hc : run.created = some c) (hres : run.result = .ok ()) :
    ∃ n, secretsShared run.trace =
      ((List.range n).flatMap fun k => (venue.ticks k).reported).map
        (fun idx => c.secrets[idx]?) := by
  unfold main at hrun
  cases hq : venue.getQuote with
  | threw e =>
    simp only [hq, Option.some.injEq] at hrun
    subst hrun
    simp at hres
  | ok n =>
    simp only [hq] at hrun
    have hquiet := checkAndSetAllowance_shares_nothing w chain srcTokenAddress allowanceTarget
      amount
    cases ha : (checkAndSetAllowance w chain srcTokenAddress allowanceTarget amount).result with
    | threw e =>
      simp only [ha, Option.some.injEq] at hrun
      subst hrun
      simp at hres
    | ok b =>
      simp only [ha] at hrun
      cases hl : hashLock sdk (secrets n randomBytes) with
      | threw e =>
        simp only [hl, Option.some.injEq] at hrun
        subst hrun
        simp at hres
      | ok lock =>
        simp only [hl] at hrun
        cases hh : secretHashes sdk (secrets n randomBytes) with
        | threw e =>
          simp only [hh, Option.some.injEq] at hrun
          subst hrun
          simp at hres
        | ok hashes =>
          simp only [hh] at hrun
          cases hco : venue.createOrder with
          | threw e =>
            simp only [hco, Option.some.injEq] at hrun
            subst hrun
            simp at hres
          | ok hash =>
            simp only [hco] at hrun
            cases hso : venue.submitOrder with
            | threw e =>
              simp only [hso, Option.some.injEq] at hrun
              subst hrun
              simp at hres
            | ok u =>
              simp only [hso] at hrun
              split at hrun
              · simp at hrun
              · simp only [Option.some.injEq] at hrun
                subst hrun
                simp at hres
              · rename_i t5 passes hloop
                obtain ⟨_, hsh⟩ := mainLoop_shared _ _ _ _ _ _ _ _ hloop
                split at hrun
                · simp only [Option.some.injEq] at hrun
                  subst hrun
                  simp at hres
                · simp only [Option.some.injEq] at hrun
                  subst hrun
                  simp only [Option.some.injEq] at hc
                  subst hc
                  refine ⟨passes, ?_⟩
                  simp only [secretsShared_append, hsh, hquiet,
                    checkOrderStatus_shares_nothing, List.range_eq_range']
                  simp [secretsShared]

/-- C14.  For every `secretsCount` `n` of the quote, the secrets of `main`
are `n` strings, the `i`-th being `0x` followed by the `i`-th 32 random
bytes in hexadecimal: 66 characters, 64 of them hexadecimal digits that
decode to those bytes.  When `secretHashes` is computed it has length `n`
and its `i`-th entry is `hashSecret` of the `i`-th secret.  A `main` that
reached `createOrder` holds exactly these secrets and hashes. -/
theorem secrets_generated {Lock Leaf : Type} (sdk : HashLockSdk Lock Leaf)
    (n : Nat) (randomBytes : Nat → Bytes32) :
    (secrets n randomBytes).length = n ∧
    (∀ i, i < n → (secrets n randomBytes)[i]? = some ("0x" ++ toHex (randomBytes i).bytes)) ∧
    (∀ s ∈ secrets n randomBytes, s.length = 66 ∧ s.data.take 2 = ['0', 'x'] ∧
      ∀ c ∈ s.data.drop 2, c ∈ "0123456789abcdef".data) ∧
    (∀ i s, (secrets n randomBytes)[i]? = some s →
      fromHex (s.data.drop 2) = some (randomBytes i).bytes) ∧
    (∀ hashes, secretHashes sdk (secrets n randomBytes) = .ok hashes →
      hashes.length = n ∧
      ∀ i, i < n → ∃ s h, (secrets n randomBytes)[i]? = some s ∧ hashes[i]? = some h ∧
        sdk.hashSecret s = .ok h) ∧
    (∀ w authKey venue chain fuel (run : MainRun Lock) c,
      main w authKey venue chain sdk randomBytes fuel = some run → run.created = some c →
      venue.getQuote = .ok n →
      c.secrets = secrets n randomBytes ∧ c.secrets.length = n ∧
        c.secretHashes.length = n ∧
        secretHashes sdk c.secrets = .ok c.secretHashes) := by
  have hlen : (secrets n randomBytes).length = n := by simp [secrets]
  have hget : ∀ i, i < n →
      (secrets n randomBytes)[i]? = some ("0x" ++ toHex (randomBytes i).bytes) := by
    intro i hi
    simp [secrets, List.getElem?_map, List.getElem?_range hi]
  have hmem : ∀ s ∈ secrets n randomBytes, ∃ i, i < n ∧
      s = "0x" ++ toHex (randomBytes i).bytes := by
    intro s hs
    simp only [secrets, List.mem_map, List.mem_range] at hs
    obtain ⟨i, hi, rfl⟩ := hs
    exact ⟨i, hi, rfl⟩
  have hhashes : ∀ hashes, secretHashes sdk (secrets n randomBytes) = .ok hashes →
      hashes.length = n ∧
      ∀ i, i < n → ∃ s h, (secrets n randomBytes)[i]? = some s ∧ hashes[i]? = some h ∧
        sdk.hashSecret s = .ok h := by
    intro hashes hh
    obtain ⟨h1, h2⟩ := mapAll_ok sdk.hashSecret _ hashes hh
    exact ⟨by rw [h1, hlen], fun i hi => h2 i (by rw [hlen]; exact hi)⟩
  refine ⟨hlen, hget, ?_, ?_, hhashes, ?_⟩
  · intro s hs
    obtain ⟨i, _, rfl⟩ := hmem s hs
    refine ⟨?_, ?_, ?_⟩
    · rw [String.length_append, toHex_length, (randomBytes i).size]; rfl
    · simp [String.data_append]
    · intro c hc
      have : c ∈ (toHex (randomBytes i).bytes).data := by
        simpa [String.data_append] using hc
      exact toHex_digits _ (randomBytes i).small c this
  · intro i s hs
    have hi : i < n := by
      by_contra hge
      have : (secrets n randomBytes)[i]? = none := by
        apply List.getElem?_eq_none
        rw [hlen]; omega
      rw [this] at hs
      simp at hs
    rw [hget i hi] at hs
    simp only [Option.some.injEq] at hs
    subst hs
    have : ("0x" ++ toHex (randomBytes i).bytes).data.drop 2 =
        (toHex (randomBytes i).bytes).data := by
      simp [String.data_append]
    rw [this]
    exact fromHex_toHex _ (randomBytes i).small
  · intro w authKey venue chain fuel run c hrun hc hq
    obtain ⟨n1, hq1, hs, _, hh⟩ :=
      main_created w authKey venue chain sdk randomBytes fuel run c hrun hc
    rw [hq] at hq1
    have hn : n = n1 := Settled.ok.inj hq1
    subst hn
    refine ⟨hs, by rw [hs, hlen], ?_, hh⟩
    rw [hs] at hh
    exact (hhashes _ hh).1

/-- C14, witness: a quote with `secretsCount = 3` gives three secrets and
three secret hashes, in `main` too. -/
theorem secrets_generated_witness :
    (secrets 3 sampleBytes).length = 3 ∧
    secrets 3 sampleBytes =
      ["0x0000000000000000000000000000000000000000000000000000000000000000",
       "0x0101010101010101010101010101010101010101010101010101010101010101",
       "0x0202020202020202020202020202020202020202020202020202020202020202"] ∧
    secretHashes sampleSdk (secrets 3 sampleBytes) = .ok
      ["hash:0x0000000000000000000000000000000000000000000000000000000000000000",
       "hash:0x0101010101010101010101010101010101010101010101010101010101010101",
       "hash:0x0202020202020202020202020202020202020202020202020202020202020202"] ∧
    (∃ run c, main "0xwallet" "key" sampleVenue sampleChain sampleSdk sampleBytes 5 = some run ∧
      run.created = some c ∧ c.secrets.length = 3 ∧ c.secretHashes.length = 3) :=
  ⟨(secrets_generated sampleSdk 3 sampleBytes).1, by decide, by decide,
    _, _, rfl, rfl, by decide, by decide⟩

theorem main_commits {Lock Leaf : Type} (w authKey : String) (venue : Venue) (chain : Chain)
    (sdk : HashLockSdk Lock Leaf) (randomBytes : Nat → Bytes32) (n : Nat) (b : Bool)
    (lock : Lock) (hashes : List String)
    (hq : venue.getQuote = .ok n)
    (ha : (checkAndSetAllowance w chain srcTokenAddress allowanceTarget amount).result = .ok b)
    (hl : hashLock sdk (secrets n randomBytes) = .ok lock)
    (hh : secretHashes sdk (secrets n randomBytes) = .ok hashes) :
    Commits w authKey venue chain sdk randomBytes
      { secrets := secrets n randomBytes, hashLock := lock, secretHashes := hashes } := by
  refine ⟨?_, ?_, ?_⟩
  · intro fuel
    simp only [main, hq, ha, hl, hh]
    cases hco : venue.createOrder with
    | threw e => exact Or.inr ⟨_, rfl, rfl⟩
    | ok hash =>
      simp only
      cases hso : venue.submitOrder with
      | threw e => exact Or.inr ⟨_, rfl, rfl⟩
      | ok u =>
        simp only
        split
        · exact Or.inl rfl
        · exact Or.inr ⟨_, rfl, rfl⟩
        · split
          · exact Or.inr ⟨_, rfl, rfl⟩
          · exact Or.inr ⟨_, rfl, rfl⟩
  · intro e hco fuel
    simp only [main, hq, ha, hl, hh, hco]
  · intro hash d status hco hso hok hbefore hfin hgs fuel hfuel
    simp only [main, hq, ha, hl, hh, hco, hso, hgs]
    obtain ⟨tr, htr⟩ := mainLoop_leaves hash (secrets n randomBytes) venue.ticks hok d 0
      ([Event.getQuote] ++
        (checkAndSetAllowance w chain srcTokenAddress allowanceTarget amount).trace ++
        [Event.sleep 1000, Event.createOrder] ++ [Event.sleep 1000, Event.submitOrder])
      (by intro j _ hj; exact hbefore j (by omega)) (by simpa using hfin) fuel hfuel
    rw [htr]
    exact ⟨_, rfl⟩

theorem main_fails_before_createOrder {Lock Leaf : Type} (w authKey : String) (venue : Venue)
    (chain : Chain) (sdk : HashLockSdk Lock Leaf) (randomBytes : Nat → Bytes32) (n : Nat)
    (b : Bool) (e : String)
    (hq : venue.getQuote = .ok n)
    (ha : (checkAndSetAllowance w chain srcTokenAddress allowanceTarget amount).result = .ok b)
    (hl : hashLock sdk (secrets n randomBytes) = .threw e) (fuel : Nat) :
    main w authKey venue chain sdk randomBytes fuel =
      some ⟨[Event.getQuote] ++
        (checkAndSetAllowance w chain srcTokenAddress allowanceTarget amount).trace,
        none, .threw e⟩ := by
  simp only [main, hq, ha, hl]

theorem readyTwice_succeeds (k : Nat) : (readyTwice k).succeeds :=
  ⟨⟨[0], rfl, fun _ _ => rfl⟩, by
    by_cases hk : k = 0
    · exact ⟨OrderStatus.Pending, by simp [readyTwice, hk]⟩
    · exact ⟨OrderStatus.Executed, by simp [readyTwice, hk]⟩⟩

theorem readyTwice_pending : ∀ k, k < 1 → ¬ (readyTwice k).finished := by
  intro k hk
  have hk0 : k = 0 := by omega
  subst hk0
  rintro ⟨s, hs, hfin⟩
  have : s = OrderStatus.Pending := (Settled.ok.inj hs).symm
  subst this
  exact absurd hfin (by decide)

/-- C15.  Let the quote ask for `n` secrets and the allowance step return.
When `n = 1`, the one secret is the first 32 random bytes and the commitment
`main` passes to `createOrder` is `forSingleFill` of that secret.  When `n`
is not 1, it is `forMultipleFills (getMerkleLeaves secrets)`, the leaves
taken over all `n` secrets in generation order.  In both cases `main` does
pass it: a `main` that has ended holds it, `main` ends holding it when
`createOrder` raises, and ends normally holding it when the venue calls
succeed and the order finishes.  When the SDK call raises, `main` ends with
that error before `createOrder`.  Two runs of `main` holding the same
ordered secrets pass the same `hashLock`, whatever else differs. -/
theorem commitment_of_main {Lock Leaf : Type} (w authKey : String) (venue : Venue)
    (chain : Chain) (sdk : HashLockSdk Lock Leaf) (randomBytes : Nat → Bytes32) (n : Nat)
    (b : Bool) (hq : venue.getQuote = .ok n)
    (ha : (checkAndSetAllowance w chain srcTokenAddress allowanceTarget amount).result =
      .ok b) :
    (n = 1 →
      secrets n randomBytes = ["0x" ++ toHex (randomBytes 0).bytes] ∧
      (∀ lock hashes, sdk.forSingleFill ("0x" ++ toHex (randomBytes 0).bytes) = .ok lock →
        secretHashes sdk (secrets n randomBytes) = .ok hashes →
        Commits w authKey venue chain sdk randomBytes
          { secrets := secrets n randomBytes, hashLock := lock, secretHashes := hashes }) ∧
      (∀ e, sdk.forSingleFill ("0x" ++ toHex (randomBytes 0).bytes) = .threw e →
        ∀ fuel, main w authKey venue chain sdk randomBytes fuel =
          some ⟨[Event.getQuote] ++
            (checkAndSetAllowance w chain srcTokenAddress allowanceTarget amount).trace,
            none, .threw e⟩)) ∧
    (n ≠ 1 →
      (∀ leaves lock hashes, sdk.getMerkleLeaves (secrets n randomBytes) = .ok leaves →
        sdk.forMultipleFills leaves = .ok lock →
        secretHashes sdk (secrets n randomBytes) = .ok hashes →
        Commits w authKey venue chain sdk randomBytes
          { secrets := secrets n randomBytes, hashLock := lock, secretHashes := hashes }) ∧
      (∀ e, (sdk.getMerkleLeaves (secrets n randomBytes) = .threw e ∨
          ∃ leaves, sdk.getMerkleLeaves (secrets n randomBytes) = .ok leaves ∧
            sdk.forMultipleFills leaves = .threw e) →
        ∀ fuel, main w authKey venue chain sdk randomBytes fuel =
          some ⟨[Event.getQuote] ++
            (checkAndSetAllowance w chain srcTokenAddress allowanceTarget amount).trace,
            none, .threw e⟩)) ∧
    (∀ w1 key1 venue1 chain1 bytes1 fuel fuel1 (run run1 : MainRun Lock) c c1,
      main w authKey venue chain sdk randomBytes fuel = some run → run.created = some c →
      main w1 key1 venue1 chain1 sdk bytes1 fuel1 = some run1 → run1.created = some c1 →
      c.secrets = c1.secrets → c.hashLock = c1.hashLock) := by
  refine ⟨?_, ?_, ?_⟩
  · intro hn
    subst hn
    have hsec : secrets 1 randomBytes = ["0x" ++ toHex (randomBytes 0).bytes] := rfl
    have hlock : hashLock sdk (secrets 1 randomBytes) =
        sdk.forSingleFill ("0x" ++ toHex (randomBytes 0).bytes) := by
      rw [hsec]; simp [hashLock]
    refine ⟨hsec, ?_, ?_⟩
    · intro lock hashes hl hh
      exact main_commits w authKey venue chain sdk randomBytes 1 b lock hashes hq ha
        (by rw [hlock]; exact hl) hh
    · intro e hl fuel
      exact main_fails_before_createOrder w authKey venue chain sdk randomBytes 1 b e hq ha
        (by rw [hlock]; exact hl) fuel
  · intro hn
    have hlen : (secrets n randomBytes).length ≠ 1 := by simpa [secrets] using hn
    have hlock : hashLock sdk (secrets n randomBytes) =
        (sdk.getMerkleLeaves (secrets n randomBytes)).andThen sdk.forMultipleFills := by
      simp [hashLock, hlen]
    refine ⟨?_, ?_⟩
    · intro leaves lock hashes hleaves hl hh
      exact main_commits w authKey venue chain sdk randomBytes n b lock hashes hq ha
        (by rw [hlock, hleaves]; exact hl) hh
    · intro e he fuel
      apply main_fails_before_createOrder w authKey venue chain sdk randomBytes n b e hq ha
      rw [hlock]
      rcases he with he | ⟨leaves, hleaves, he⟩
      · rw [he]; rfl
      · rw [hleaves]; exact he
  · intro w1 key1 venue1 chain1 bytes1 fuel fuel1 run run1 c c1 hrun hc hrun1 hc1 hsame
    obtain ⟨_, _, _, hl, _⟩ :=
      main_created w authKey venue chain sdk randomBytes fuel run c hrun hc
    obtain ⟨_, _, _, hl1, _⟩ :=
      main_created w1 key1 venue1 chain1 sdk bytes1 fuel1 run1 c1 hrun1 hc1
    rw [hsame, hl1] at hl
    exact (Settled.ok.inj hl).symm

/-- C15, witness: with an SDK that tags its input, a quote asking for one
secret makes `main` pass the single-fill lock of that secret, and a quote
asking for three makes it pass the Merkle lock of the three leaves in order;
both runs end normally. -/
theorem commitment_of_main_witness :
    (∃ tr, main "0xwallet" "key" sampleVenueOne sampleChain sampleSdk sampleBytes 2 =
      some ⟨tr, some
        { secrets := secrets 1 sampleBytes,
          hashLock :=
            "single:0x0000000000000000000000000000000000000000000000000000000000000000",
          secretHashes :=
            ["hash:0x0000000000000000000000000000000000000000000000000000000000000000"] },
        .ok ()⟩) ∧
    (∃ tr, main "0xwallet" "key" sampleVenue sampleChain sampleSdk sampleBytes 2 =
      some ⟨tr, some
        { secrets := secrets 3 sampleBytes,
          hashLock := "merkle:" ++
            "leaf:0x0000000000000000000000000000000000000000000000000000000000000000," ++
            "leaf:0x0101010101010101010101010101010101010101010101010101010101010101," ++
            "leaf:0x0202020202020202020202020202020202020202020202020202020202020202",
          secretHashes :=
            ["hash:0x0000000000000000000000000000000000000000000000000000000000000000",
             "hash:0x0101010101010101010101010101010101010101010101010101010101010101",
             "hash:0x0202020202020202020202020202020202020202020202020202020202020202"] },
        .ok ()⟩) :=
  ⟨(((commitment_of_main "0xwallet" "key" sampleVenueOne sampleChain sampleSdk sampleBytes 1
        true rfl (by decide)).1 rfl).2.1 _ _ rfl (by decide)).2.2
      "0xhash" 1 OrderStatus.Executed rfl rfl readyTwice_succeeds readyTwice_pending
      ⟨OrderStatus.Executed, rfl, by decide⟩ rfl 2 (by decide),
   (((commitment_of_main "0xwallet" "key" sampleVenue sampleChain sampleSdk sampleBytes 3
        true rfl (by decide)).2.1 (by decide)).1 _ _ _ rfl (by decide) (by decide)).2.2
      "0xhash" 1 OrderStatus.Executed rfl rfl readyTwice_succeeds readyTwice_pending
      ⟨OrderStatus.Executed, rfl, by decide⟩ rfl 2 (by decide)⟩

/-- C16.  In one pass of the loop of `main`, when the venue reports the
fills `fills` and the pass completes, its calls are the fills query, then
for every reported fill in the reported order one `submitSecret(hash,
secrets[idx])`, then the status query.  A pass cut short by a failing call
has submitted for a first part of the list only.  When no fill is reported
no secret is submitted.  In a `main` that ends normally the secrets
submitted are entries of the secrets it generated, at the reported indices. -/
theorem secret_submitted_per_ready_fill (hash : String) (secrets : List String) (t : Tick)
    (trace : List Event) :
    (∀ fills b, t.fills = .ok fills →
      (monitorIter hash secrets t trace).result = .ok b →
      (monitorIter hash secrets t trace).trace =
        trace ++ [Event.sleep 1000, Event.getReadyToAcceptSecretFills hash] ++
          fills.flatMap (fun idx =>
            [Event.sleep 1000, Event.submitSecret hash secrets[idx]?]) ++
          [Event.sleep 1000, Event.getOrderStatus hash] ∧
      secretsShared (monitorIter hash secrets t trace).trace =
        secretsShared trace ++ fills.map fun idx => secrets[idx]?) ∧
    (∀ fills, t.fills = .ok fills → ∃ k, k ≤ fills.length ∧
      secretsShared (monitorIter hash secrets t trace).trace =
        secretsShared trace ++ (fills.take k).map fun idx => secrets[idx]?) ∧
    (t.fills = .ok [] →
      secretsShared (monitorIter hash secrets t trace).trace = secretsShared trace) ∧
    (∀ {Lock Leaf : Type} (w authKey : String) (venue : Venue) (chain : Chain)
        (sdk : HashLockSdk Lock Leaf) (randomBytes : Nat → Bytes32) (fuel : Nat)
        (run : MainRun Lock) (c : Commitment Lock),
      main w authKey venue chain sdk randomBytes fuel = some run →
      run.created = some c → run.result = .ok () →
      ∃ n, secretsShared run.trace =
        ((List.range n).flatMap fun k => (venue.ticks k).reported).map
          (fun idx => c.secrets[idx]?)) := by
  have hpart : ∀ fills, t.fills = .ok fills → ∃ k, k ≤ fills.length ∧
      secretsShared (monitorIter hash secrets t trace).trace =
        secretsShared trace ++ (fills.take k).map fun idx => secrets[idx]? := by
    intro fills hf
    obtain ⟨k, hk, htr, _⟩ := monitorIter_trace hash secrets t trace fills hf
    have hcalls : ∀ l : List Nat, secretsShared (l.flatMap (fillCalls hash secrets)) =
        l.map fun idx => secrets[idx]? := by
      intro l
      induction l with
      | nil => rfl
      | cons idx rest ih =>
        rw [List.flatMap_cons, secretsShared_append, ih]
        simp [secretsShared, fillCalls]
    rcases htr with htr | ⟨hkeq, htr⟩
    · refine ⟨k, hk, ?_⟩
      rw [htr, secretsShared_append, secretsShared_append, hcalls]
      simp [secretsShared]
    · refine ⟨k, hk, ?_⟩
      rw [htr, hkeq, List.take_length, secretsShared_append, secretsShared_append,
        secretsShared_append, hcalls]
      simp [secretsShared]
  refine ⟨?_, hpart, ?_, ?_⟩
  · intro fills b hf hres
    obtain ⟨_, _, _, hfull⟩ := monitorIter_trace hash secrets t trace fills hf
    refine ⟨hfull b hres, ?_⟩
    have := monitorIter_shared hash secrets t trace b hres
    simpa [Tick.reported, hf] using this
  · intro hf
    obtain ⟨k, _, hsh⟩ := hpart [] hf
    simpa using hsh
  · intro Lock Leaf w authKey venue chain sdk randomBytes fuel run c hrun hc hres
    exact main_shared w authKey venue chain sdk randomBytes fuel run c hrun hc hres

/-- C16, witness: with fills 1 and 0 reported, in that order, the pass
submits `secrets[1]`, then `secrets[0]`, once each. -/
theorem secret_submitted_per_ready_fill_witness :
    (monitorIter "0xhash" sampleSecrets readyOneZero []).trace =
      [Event.sleep 1000, Event.getReadyToAcceptSecretFills "0xhash",
       Event.sleep 1000, Event.submitSecret "0xhash" (some "0xs1"),
       Event.sleep 1000, Event.submitSecret "0xhash" (some "0xs0"),
       Event.sleep 1000, Event.getOrderStatus "0xhash"] ∧
    secretsShared (monitorIter "0xhash" sampleSecrets readyOneZero []).trace =
      [some "0xs1", some "0xs0"] :=
  ⟨((secret_submitted_per_ready_fill "0xhash" sampleSecrets readyOneZero []).1
      [1, 0] false rfl rfl).1,
   ((secret_submitted_per_ready_fill "0xhash" sampleSecrets readyOneZero []).1
      [1, 0] false rfl rfl).2⟩

end FusionPlus

/-! ## The status queries and `buildOrder` -/

theorem statusQuery_message (stringify : Json → String) (query : HttpOutcome → Run Json)
    (hq : IsStatusQuery stringify query) (error : AxiosError) :
    ∃ message, (query (.rejected error)).result = .threw message ∧
      describes error stringify message := by
  rcases hq with ⟨a, h, rfl⟩ | ⟨h, a, rfl⟩ | ⟨h, c, a, rfl⟩ | ⟨c, h, a, rfl⟩ <;>
    simp only [CheckTransaction.checkOrderStatus, FusionPlus.checkOrderStatus,
      Fusion.checkOrderStatusHTTP, LimitOrder.checkOrderStatusHTTP, describes] <;>
    cases error.response <;> simp <;> split_ifs <;> simp

theorem describes_first (stringify : Json → String) (error : AxiosError) (message : String)
    (h : describes error stringify message) :
    message.data.head? =
      some (match error.kind with
        | .venueRejection => 'A'
        | .networkUnavailable => 'N'
        | .requestError => 'R') := by
  unfold describes at h
  unfold AxiosError.kind
  cases hr : error.response with
  | some r =>
    simp only [hr] at h ⊢
    rcases h with h | h <;> rw [h] <;> simp [String.data_append]
  | none =>
    simp only [hr] at h ⊢
    by_cases hreq : error.request = true
    · simp only [hreq, if_true] at h ⊢
      rw [h]; rfl
    · simp only [hreq] at h ⊢
      simp at h
      rw [h]; simp [String.data_append]

/-- C17.  Each of the four status queries turns every failed request into
an error whose message is fixed by precedence: with a response, `API Error:
<status> - <body>`; otherwise with a request, `No response received from
server`; otherwise `Request Error: <message>`.  Failed requests of two
different kinds never give the same error, in one query or across two. -/
theorem failed_requests_are_classified (stringify : Json → String)
    (query query' : HttpOutcome → Run Json)
    (hq : IsStatusQuery stringify query) (hq' : IsStatusQuery stringify query') :
    (∀ error, ∃ message, (query (.rejected error)).result = .threw message ∧
      describes error stringify message) ∧
    (∀ e1 e2, e1.kind ≠ e2.kind →
      (query (.rejected e1)).result ≠ (query' (.rejected e2)).result) := by
  refine ⟨statusQuery_message stringify query hq, ?_⟩
  intro e1 e2 hkind heq
  obtain ⟨m1, h1, d1⟩ := statusQuery_message stringify query hq e1
  obtain ⟨m2, h2, d2⟩ := statusQuery_message stringify query' hq' e2
  rw [h1, h2] at heq
  have hm : m1 = m2 := Settled.threw.inj heq
  have f1 := describes_first stringify e1 m1 d1
  have f2 := describes_first stringify e2 m2 d2
  rw [hm, f2] at f1
  apply hkind
  cases h1k : e1.kind <;> cases h2k : e2.kind <;> simp [h1k, h2k] at f1 <;> rfl

/-- C17, witness: in check_transaction.js and fusion.js, a request that got
no response and one that could not be set up give different errors. -/
theorem failed_requests_are_classified_witness :
    (CheckTransaction.checkOrderStatus "key" "0xhash"
        (.rejected ⟨none, true, "timeout"⟩)).result ≠
      (Fusion.checkOrderStatusHTTP Json.coerce "0xhash" 8453 "key"
        (.rejected ⟨none, false, "timeout"⟩)).result :=
  (failed_requests_are_classified Json.coerce _ _ (Or.inl ⟨"key", "0xhash", rfl⟩)
    (Or.inr (Or.inr (Or.inl ⟨"0xhash", 8453, "key", rfl⟩)))).2
    ⟨none, true, "timeout"⟩ ⟨none, false, "timeout"⟩ (by decide)

/-- C18, the divergence.  The venue rejects with status 400 and a structured
body.  `checkOrderStatus` of check_transaction.js and of fusion_plus.js put
the body into a template literal, so the two different bodies give the same
error, `API Error: 400 - [object Object]`: the body cannot be recovered. -/
theorem structured_bodies_collide :
    Json.obj [("error", .str "insufficient balance")] ≠
      Json.obj [("error", .str "order expired")] ∧
    (CheckTransaction.checkOrderStatus "key" "0xhash"
        (rejection 400 "insufficient balance")).result =
      .threw "API Error: 400 - [object Object]" ∧
    (CheckTransaction.checkOrderStatus "key" "0xhash"
        (rejection 400 "order expired")).result =
      .threw "API Error: 400 - [object Object]" ∧
    (FusionPlus.checkOrderStatus "0xhash" "key"
        (rejection 400 "insufficient balance")).result =
      .threw "API Error: 400 - [object Object]" ∧
    (FusionPlus.checkOrderStatus "0xhash" "key" (rejection 400 "order expired")).result =
      .threw "API Error: 400 - [object Object]" :=
  ⟨by simp, rfl, rfl, rfl, rfl⟩

/-- C19, the divergence.  When the build request is rejected, whatever the
error, `buildOrder` of limit_order.js returns normally, with `undefined`. -/
theorem buildOrder_swallows_rejection (authKey : String) (chainId : Nat)
    (error : AxiosError) :
    (LimitOrder.buildOrder authKey chainId (.rejected error)).result = .ok none := rfl

/-! ## Start-up -/

/-- C20.  The start-up check of the swap scripts raises an error exactly
when one of `PRIVATE_KEY`, `ALCHEMY_API_KEY`, `AUTH_KEY` is unset or empty,
and the error names the first missing one in that order; so with all three
set and non-empty no error is raised.  The check of check_transaction.js
raises exactly when `AUTH_KEY` is unset or empty. -/
theorem startup_config_check (env : String → Option String) :
    ((∃ message, Startup.config env = .threw message) ↔
      (Startup.missing env "PRIVATE_KEY" ∨ Startup.missing env "ALCHEMY_API_KEY" ∨
        Startup.missing env "AUTH_KEY")) ∧
    (Startup.missing env "PRIVATE_KEY" →
      Startup.config env = .threw "PRIVATE_KEY environment variable is required") ∧
    (¬ Startup.missing env "PRIVATE_KEY" → Startup.missing env "ALCHEMY_API_KEY" →
      Startup.config env = .threw "ALCHEMY_API_KEY environment variable is required") ∧
    (¬ Startup.missing env "PRIVATE_KEY" → ¬ Startup.missing env "ALCHEMY_API_KEY" →
      Startup.missing env "AUTH_KEY" →
      Startup.config env = .threw "AUTH_KEY environment variable is required") ∧
    ((∃ message, CheckTransaction.config env = .threw message) ↔
      Startup.missing env "AUTH_KEY") ∧
    (Startup.missing env "AUTH_KEY" →
      CheckTransaction.config env = .threw "AUTH_KEY environment variable is required") := by
  unfold Startup.config CheckTransaction.config Startup.missing
  cases hp : env "PRIVATE_KEY" <;> cases ha : env "ALCHEMY_API_KEY" <;>
    cases hk : env "AUTH_KEY" <;> simp <;> (try split_ifs) <;> simp_all

/-! ## The sequence of calls and the final status check of `executeFusionSwap` -/

namespace Fusion

theorem monitorIter_extends (h : String) (st : Nat) (p : Poll) (m : Monitor) :
    ∃ rest, (monitorIter h st p m).1.trace =
      m.trace ++ [Event.sleep 2000, Event.getOrderStatus h] ++ rest := by
  cases hp : p.response with
  | threw e =>
    rw [monitorIter_threw h st p m e hp]
    exact ⟨[Event.sleep 5000], by simp⟩
  | ok s =>
    rw [monitorIter_ok_state h st p m s hp]
    by_cases hs : s = m.lastStatus
    · exact ⟨[], by simp [hs]⟩
    · exact ⟨[Event.logStatus s], by simp [hs]⟩

theorem monitorLoop_extends (h : String) (g : Nat → Poll) (st : Nat) :
    ∀ (fuel : Nat) (m m1 : Monitor), monitorLoop h g st fuel m = some m1 →
      ∃ rest, m1.trace = m.trace ++ [Event.sleep 2000, Event.getOrderStatus h] ++ rest := by
  intro fuel
  induction fuel with
  | zero => intro m m1 hloop; simp [monitorLoop] at hloop
  | succ fuel ih =>
    intro m m1 hloop
    rw [monitorLoop_succ] at hloop
    obtain ⟨r1, hr1⟩ := monitorIter_extends h st (g m.polls) m
    by_cases hb : (monitorIter h st (g m.polls) m).2 = true
    · rw [if_pos hb] at hloop
      rw [← Option.some.inj hloop]
      exact ⟨r1, hr1⟩
    · rw [if_neg hb] at hloop
      obtain ⟨r2, hr2⟩ := ih _ m1 hloop
      refine ⟨r1 ++ [Event.sleep 2000, Event.getOrderStatus h] ++ r2, ?_⟩
      rw [hr2, hr1]
      simp [List.append_assoc]

theorem submitPhase_reached (w : String) (venue : Venue) (chain : Chain) (p : SwapParams)
    (hash : String) (hreach : (submitPhase w venue chain p).result = .ok hash) :
    (submitPhase w venue chain p).trace =
        [Event.getQuote, Event.sleep 1000] ++ guardCalls w chain p ++
          [Event.createOrder, Event.sleep 1000, Event.submitOrder] ∧
      (toLowerCase p.fromTokenAddress ≠ nativeToken →
        ∃ b, (checkAndSetAllowance w chain p.fromTokenAddress baseRouterAddress
          p.amount).result = .ok b) ∧
      (∃ q, venue.getQuote = .ok q) ∧ (∃ o, venue.createOrder = .ok o) ∧
      venue.submitOrder = .ok hash := by
  unfold submitPhase guardCalls at *
  by_cases hnative : toLowerCase p.fromTokenAddress = nativeToken
  · cases hq : venue.getQuote <;> cases hc : venue.createOrder <;>
      cases hs : venue.submitOrder <;> simp_all
  · cases hq : venue.getQuote <;> cases hc : venue.createOrder <;>
      cases hs : venue.submitOrder <;>
      cases ha : (checkAndSetAllowance w chain p.fromTokenAddress baseRouterAddress
        p.amount).result <;> simp_all

/-- C21.  In a run of `executeFusionSwap` that reaches the monitor, that is
whose steps up to the submission all succeed, the calls up to there are, in
this order: `getQuote`, a sleep, the calls of the allowance step (none for
the native asset), `createOrder`, a sleep, `submitOrder`.  The allowance
step has returned before `createOrder`, no order is created or submitted
within or before it, and no status is polled before `submitOrder` has
returned the order hash.  The first pass of the monitor continues these
calls with a sleep and the first `getOrderStatus` of that hash, and so does
the trace of every finished run. -/
theorem calls_are_sequential (w : String) (venue : Venue) (chain : Chain)
    (p : SwapParams) (hash : String)
    (hreach : (submitPhase w venue chain p).result = .ok hash) :
    (submitPhase w venue chain p).trace =
        [Event.getQuote, Event.sleep 1000] ++ guardCalls w chain p ++
          [Event.createOrder, Event.sleep 1000, Event.submitOrder] ∧
      (toLowerCase p.fromTokenAddress ≠ nativeToken →
        ∃ b, (checkAndSetAllowance w chain p.fromTokenAddress baseRouterAddress
          p.amount).result = .ok b) ∧
      venue.submitOrder = .ok hash ∧
      ordersPlaced ([Event.getQuote, Event.sleep 1000] ++ guardCalls w chain p) = 0 ∧
      pollsMade (submitPhase w venue chain p).trace = 0 ∧
      (∀ st, ∃ rest,
        (monitorIter hash st (venue.getOrderStatus 0)
            { now := st, lastStatus := "", polls := 0,
              trace := (submitPhase w venue chain p).trace }).1.trace =
          [Event.getQuote, Event.sleep 1000] ++ guardCalls w chain p ++
            [Event.createOrder, Event.sleep 1000, Event.submitOrder,
             Event.sleep 2000, Event.getOrderStatus hash] ++ rest) ∧
      (∀ st fuel run, executeFusionSwap w venue chain st fuel p = some run →
        ∃ rest, run.trace =
          [Event.getQuote, Event.sleep 1000] ++ guardCalls w chain p ++
            [Event.createOrder, Event.sleep 1000, Event.submitOrder,
             Event.sleep 2000, Event.getOrderStatus hash] ++ rest) := by
  obtain ⟨htrace, hguard, _, _, hsubmit⟩ := submitPhase_reached w venue chain p hash hreach
  refine ⟨htrace, hguard, hsubmit, ?_, (submitPhase_quiet w venue chain p).1, ?_, ?_⟩
  · have hno : ordersPlaced (guardCalls w chain p) = 0 := by
      unfold guardCalls
      split_ifs
      · rfl
      · exact (checkAndSetAllowance_calls w chain p.fromTokenAddress baseRouterAddress
          p.amount).2.2
    have happ : ordersPlaced ([Event.getQuote, Event.sleep 1000] ++ guardCalls w chain p) =
        ordersPlaced [Event.getQuote, Event.sleep 1000] +
          ordersPlaced (guardCalls w chain p) := by
      simp [ordersPlaced, List.countP_append]
    rw [happ, hno]; rfl
  · intro st
    obtain ⟨rest, hrest⟩ := monitorIter_extends hash st (venue.getOrderStatus 0)
      { now := st, lastStatus := "", polls := 0,
        trace := (submitPhase w venue chain p).trace }
    refine ⟨rest, ?_⟩
    rw [hrest, htrace]
    simp [List.append_assoc]
  · intro st fuel run hrun
    unfold executeFusionSwap at hrun
    simp only [hreach] at hrun
    cases hloop : monitorLoop hash venue.getOrderStatus st fuel
        { now := st, lastStatus := "", polls := 0,
          trace := (submitPhase w venue chain p).trace } with
    | none => simp [hloop] at hrun
    | some m =>
      simp only [hloop, Option.some.injEq] at hrun
      obtain ⟨rest, hrest⟩ := monitorLoop_extends hash venue.getOrderStatus st fuel _ m hloop
      refine ⟨rest, ?_⟩
      rw [← hrun]
      show m.trace = _
      rw [hrest, htrace]
      simp [List.append_assoc]

/-- C21, witness: the swap of `main` with nothing granted yet.  The calls up
to the submission are the quote, the four calls of the allowance guard, then
`createOrder` and `submitOrder`. -/
theorem calls_are_sequential_witness :
    (submitPhase "0xwallet" (venueOf pendingPendingFilled) sampleChain sampleParams).trace =
      [Event.getQuote, Event.sleep 1000] ++
        guardCalls "0xwallet" sampleChain sampleParams ++
        [Event.createOrder, Event.sleep 1000, Event.submitOrder] ∧
    guardCalls "0xwallet" sampleChain sampleParams =
      [Event.allowance sampleParams.fromTokenAddress "0xwallet" baseRouterAddress,
       Event.getGasPrice,
       Event.approve sampleParams.fromTokenAddress baseRouterAddress MaxUint256 100000
         1100000000,
       Event.wait 1] :=
  ⟨(calls_are_sequential "0xwallet" (venueOf pendingPendingFilled) sampleChain sampleParams
      "0xorder" (by decide)).1, by decide⟩

theorem finalHttpCheck_result (stringify : Json → String) (authKey : Option String)
    (orderHash : String) (answer : HttpOutcome) :
    (finalHttpCheck stringify authKey orderHash answer).result = .ok () := by
  unfold finalHttpCheck
  simp only
  split <;> rfl

/-- C22.  The final HTTP status check never raises: whatever the request
answers, and whatever `authKey` is bound to, it ends normally.  What
`executeFusionSwap` returns or raises is the same for every answer of the
check and every binding, and is what `executeFusionSwap` returns without it:
`orderHash`, `executionTime` and `finalStatus` come from the monitor alone.
With `authKey` undeclared, as in fusion.js, the whole run is that of
`executeFusionSwap`: no request is sent. -/
theorem final_check_leaves_result (stringify : Json → String) (w : String)
    (venue : Venue) (chain : Chain) (st fuel : Nat) (p : SwapParams) :
    (∀ authKey orderHash answer,
      (finalHttpCheck stringify authKey orderHash answer).result = .ok ()) ∧
    (∀ authKey answer,
      (executeFusionSwapWith stringify authKey answer w venue chain st fuel p).map
          (fun run => run.result) =
        (executeFusionSwap w venue chain st fuel p).map (fun run => run.result)) ∧
    (∀ authKey authKey1 answer answer1,
      (executeFusionSwapWith stringify authKey answer w venue chain st fuel p).map
          (fun run => run.result) =
        (executeFusionSwapWith stringify authKey1 answer1 w venue chain st fuel p).map
          (fun run => run.result)) ∧
    (∀ answer,
      executeFusionSwapWith stringify none answer w venue chain st fuel p =
        executeFusionSwap w venue chain st fuel p) := by
  have hsame : ∀ authKey answer,
      (executeFusionSwapWith stringify authKey answer w venue chain st fuel p).map
          (fun run => run.result) =
        (executeFusionSwap w venue chain st fuel p).map (fun run => run.result) := by
    intro authKey answer
    simp only [executeFusionSwapWith, executeFusionSwap]
    cases hsub : (submitPhase w venue chain p).result with
    | threw e => rfl
    | ok hash =>
      simp only
      cases hloop : monitorLoop hash venue.getOrderStatus st fuel
          { now := st, lastStatus := "", polls := 0,
            trace := (submitPhase w venue chain p).trace } with
      | none => rfl
      | some m => rfl
  refine ⟨finalHttpCheck_result stringify, hsame, ?_, ?_⟩
  · intro authKey authKey1 answer answer1
    rw [hsame, hsame]
  · intro answer
    simp only [executeFusionSwapWith, executeFusionSwap]
    cases hsub : (submitPhase w venue chain p).result with
    | threw e => rfl
    | ok hash =>
      simp only
      cases hloop : monitorLoop hash venue.getOrderStatus st fuel
          { now := st, lastStatus := "", polls := 0,
            trace := (submitPhase w venue chain p).trace } with
      | none => rfl
      | some m => simp [finalHttpCheck]

/-- C22, witness: the polls answer `Pending`, `Pending`, `Filled`; the
final check is made with a key and answers `cancelled`.  The run returns
`finalStatus = filled`, as without the check. -/
theorem final_check_leaves_result_witness :
    ∃ tr r, executeFusionSwapWith Json.coerce (some "key") saysCancelled "0xwallet"
        (venueOf pendingPendingFilled) sampleChain 0 3 sampleParams = some ⟨tr, .ok r⟩ ∧
      r.finalStatus = "filled" ∧
      tr.getLast? = some (Event.axiosGet
        "https://api.1inch.dev/fusion/orders/v2.0/8453/order/status/0xorder" "Bearer key") ∧
      (executeFusionSwap "0xwallet" (venueOf pendingPendingFilled) sampleChain 0 3
          sampleParams).map (fun run => run.result) = some (.ok r) :=
  ⟨_, _, rfl, rfl, by decide,
    ((final_check_leaves_result Json.coerce "0xwallet" (venueOf pendingPendingFilled)
      sampleChain 0 3 sampleParams).2.1 (some "key") saysCancelled).symm⟩

end Fusion

/-- C23.  When the allowance is insufficient and the provider returns the
gas price `g`, `checkAndSetAllowance` of fusion.js calls `approve` with the
gas price `g * 110 / 100` in integer arithmetic, and with no other.  That
price is the floor of the exact quotient, equals `g + g / 10`, is never
below `g`, and is above `g` exactly when `g >= 10`. -/
theorem approval_gas_price (w token spender : String) (amount a g : Nat) (chain : Chain)
    (hread : chain.allowance = .ok a) (hlt : a < amount)
    (hg : chain.getGasPrice = .ok g) :
    (∃ rest, (Fusion.checkAndSetAllowance w chain token spender amount).trace =
      [Event.allowance token w spender, Event.getGasPrice,
       Event.approve token spender MaxUint256 100000 (g * 110 / 100)] ++ rest) ∧
    (∀ token1 spender1 value gasLimit gasPrice,
      Event.approve token1 spender1 value gasLimit gasPrice ∈
        (Fusion.checkAndSetAllowance w chain token spender amount).trace →
      gasPrice = g * 110 / 100) ∧
    g * 110 / 100 = g + g / 10 ∧
    ((g * 110 / 100 : Nat) : ℚ) = ⌊((g : ℚ) * 110 / 100)⌋₊ ∧
    g ≤ g * 110 / 100 ∧
    (g < g * 110 / 100 ↔ 10 ≤ g) := by
  refine ⟨?_, ?_, by omega, ?_, by omega, by omega⟩
  · cases ha : chain.approve <;> cases hw : chain.wait <;>
      simp [Fusion.checkAndSetAllowance, hread, hlt, hg, ha, hw]
  · cases ha : chain.approve <;> cases hw : chain.wait <;>
      simp [Fusion.checkAndSetAllowance, hread, hlt, hg, ha, hw]
  · have h : ((g : ℚ) * 110 / 100) = (((g * 110 : Nat) : ℚ) / ((100 : Nat) : ℚ)) := by
      push_cast; ring
    rw [h, Nat.floor_div_eq_div]

/-- C23, witness: at a gas price of 1 gwei the approval is sent with
1.1 gwei. -/
theorem approval_gas_price_witness :
    ∃ rest, (Fusion.checkAndSetAllowance "0xwallet" sampleChain "0xtoken" "0xrouter"
        5000000).trace =
      [Event.allowance "0xtoken" "0xwallet" "0xrouter", Event.getGasPrice,
       Event.approve "0xtoken" "0xrouter" MaxUint256 100000 (1000000000 * 110 / 100)] ++
        rest :=
  (approval_gas_price "0xwallet" "0xtoken" "0xrouter" 5000000 0 1000000000 sampleChain
    rfl (by decide) rfl).1

